import Mathlib

/-!
Verification development for the fuega-ai backend core: the workflow
execution engine, its human-in-the-loop (HITL) approval gate, the in-process
message bus, and the follow-up cadence scheduler.

Python sources embedded here:
- `backend/app/core/followup.py`        (follow-up cadence)
- `backend/app/core/message_bus.py`     (pub/sub bus)
- `backend/app/core/workflow_engine.py` (state machine, `check_hitl`)
- `backend/app/api/approvals.py`        (approval decision endpoints)

Modelling conventions:
- machine time is an abstract `Nat` clock (`now`), with the 24-hour approval
  expiry counted in hours;
- JSON payloads are flat association lists of string keys to string/integer
  values (`Payload`), which covers every payload the embedded code inspects;
- numeric columns that only ever flow into rendered text (e.g. a lead's
  Google rating) are abstracted to `Int`;
- the database session is replaced by explicit state threading; each commit
  point corresponds to a state value;
- the LLM agent is an oracle `Nat → AgentOutcome` indexed by the number of
  agent invocations made so far, since the engine treats the agent as an
  opaque external collaborator.
-/

namespace Fuega

/-- Characters and quote helpers used to render Python-style reprs. -/
def lbraceChar : Char := Char.ofNat 123

def rbraceChar : Char := Char.ofNat 125

def squote : String := String.singleton (Char.ofNat 39)

/-- Scalar JSON value: the embedded code only ever inspects string and
numeric leaves of its payload dictionaries. -/
inductive JVal where
  | str : String → JVal
  | num : Int → JVal
deriving DecidableEq, Repr

/-- A JSON object, as an insertion-ordered association list (Python dicts
preserve insertion order and never hold duplicate keys). -/
abbrev Payload := List (String × JVal)

/-- Render a scalar the way Python's `str`/`repr` renders dict values. -/
def pyReprJVal : JVal → String
  | JVal.str s => squote ++ s ++ squote
  | JVal.num n => toString n

/-- Render a payload the way Python's `str(payload)` renders a dict:
`{'key': value, ...}`. -/
def pyReprPayload (p : Payload) : String :=
  "\x7b" ++ String.intercalate ", "
    (p.map (fun kv => squote ++ kv.1 ++ squote ++ ": " ++ pyReprJVal kv.2)) ++ "\x7d"

/-! ## Follow-up cadence scheduler (`backend/app/core/followup.py`) -/

/-- Lead pipeline stages (`LeadStage` enum in `database/models.py`). -/
inductive LeadStage where
  | prospect
  | researched
  | qualified
  | outreach_drafted
  | outreach_sent
  | responded
  | won
  | lost
deriving DecidableEq, Repr

/-- String value of a `LeadStage`, mirroring the Python enum's `.value`. -/
def leadStageValue : LeadStage → String
  | LeadStage.prospect => "prospect"
  | LeadStage.researched => "researched"
  | LeadStage.qualified => "qualified"
  | LeadStage.outreach_drafted => "outreach_drafted"
  | LeadStage.outreach_sent => "outreach_sent"
  | LeadStage.responded => "responded"
  | LeadStage.won => "won"
  | LeadStage.lost => "lost"

/-- The fields of a `Lead` row that `followup.py` reads or writes.
`google_rating` is a float column in the schema; it only ever flows into
rendered message text here, so its numeric type is abstracted to `Int`. -/
structure Lead where
  id : Nat
  business_name : String
  language : Option String
  stage : LeadStage
  google_rating : Option Int
  review_count : Option Int
  has_website : Option Bool
  has_social : Option Bool
  followup_count : Option Nat
  last_followup_at : Option Nat
deriving DecidableEq, Repr

/-- One entry of `FOLLOWUP_SCHEDULE`: `{"day": _, "type": _, "channel": _}`.
The `type` key is spelled `ftype` because `type` is a Lean keyword. -/
structure FollowupStep where
  day : Nat
  ftype : String
  channel : String
deriving DecidableEq, Repr

/-- The fixed four-touch cadence (`FOLLOWUP_SCHEDULE`). -/
def FOLLOWUP_SCHEDULE : List FollowupStep :=
  [⟨0, "initial", "email+whatsapp"⟩,
   ⟨3, "followup_1", "email"⟩,
   ⟨7, "followup_2", "whatsapp"⟩,
   ⟨14, "final", "email"⟩]

/-- A template in both supported languages. -/
structure LangText where
  es : String
  pt : String
deriving DecidableEq, Repr

/-- `templates[key].get(lang, templates[key]["es"])` for `lang ∈ {es, pt}`. -/
def pickLang (lt : LangText) (lang : String) : String :=
  if lang == "pt" then lt.pt else lt.es

/-- The per-type message templates of one `FOLLOWUP_TEMPLATES` entry. -/
structure FollowupTemplates where
  email_subject : LangText
  email_body : LangText
  whatsapp : LangText
deriving DecidableEq, Repr

/-- The `"initial"` entry of `FOLLOWUP_TEMPLATES` (template text verbatim;
placeholders are filled by `pyFormat`). -/
def initialTemplates : FollowupTemplates :=
    { email_subject :=
        { es := "Ayudamos a {business_name} a conseguir mas clientes"
        , pt := "Ajudamos {business_name} a conquistar mais clientes" }
    , email_body :=
        { es := "Hola!\n\nSoy Ana de Fuega AI. Notamos que {business_name} tiene {google_rating_line} pero {digital_gap_line}.\n\n{value_prop_line}\n\nMe encantaria platicarte como podemos ayudar. Tienes 15 minutos esta semana?\n\nSaludos,\nAna - Fuega AI"
        , pt := "Ola!\n\nSou Ana da Fuega AI. Notamos que {business_name} tem {google_rating_line} mas {digital_gap_line}.\n\n{value_prop_line}\n\nAdoraria conversar sobre como podemos ajudar. Tem 15 minutos esta semana?\n\nAbracos,\nAna - Fuega AI" }
    , whatsapp :=
        { es := "Hola! Soy Ana de Fuega AI. Vi que {business_name} tiene {google_rating_line} pero {digital_gap_line}. {value_prop_line} Te puedo contar mas?"
        , pt := "Ola! Sou Ana da Fuega AI. Vi que {business_name} tem {google_rating_line} mas {digital_gap_line}. {value_prop_line} Posso te contar mais?" } }

/-- The `"followup_1"` entry of `FOLLOWUP_TEMPLATES`. -/
def followup1Templates : FollowupTemplates :=
    { email_subject :=
        { es := "Seguimiento — una idea para {business_name}"
        , pt := "Seguimento — uma ideia para {business_name}" }
    , email_body :=
        { es := "Hola!\n\nQueria dar seguimiento a mi mensaje anterior. {specific_benefit}\n\nMuchos negocios como el tuyo han visto resultados en las primeras 4 semanas. Si te interesa, con gusto te preparo una propuesta sin compromiso.\n\nSaludos,\nAna - Fuega AI"
        , pt := "Ola!\n\nQueria dar seguimento a minha mensagem anterior. {specific_benefit}\n\nMuitos negocios como o seu viram resultados nas primeiras 4 semanas. Se tiver interesse, preparo uma proposta sem compromisso.\n\nAbracos,\nAna - Fuega AI" }
    , whatsapp :=
        { es := "Hola! Solo queria dar seguimiento. {specific_benefit} Me avisas si te interesa saber mas."
        , pt := "Ola! So queria dar seguimento. {specific_benefit} Me avisa se tiver interesse." } }

/-- The `"followup_2"` entry of `FOLLOWUP_TEMPLATES`. -/
def followup2Templates : FollowupTemplates :=
    { email_subject :=
        { es := "{business_name} — ultima oportunidad esta semana"
        , pt := "{business_name} — ultima oportunidade esta semana" }
    , email_body :=
        { es := "Hola!\n\nSoy de Fuega AI, te escribi la semana pasada sobre como ayudar a {business_name} a crecer digitalmente.\n\n{value_prop_line}\n\nSi prefieres, tambien podemos hablar por WhatsApp. Solo responde y coordinamos.\n\nSaludos,\nAna - Fuega AI"
        , pt := "Ola!\n\nSou da Fuega AI, te escrevi na semana passada sobre como ajudar {business_name} a crescer digitalmente.\n\n{value_prop_line}\n\nSe preferir, tambem podemos conversar por WhatsApp. So responda e combinamos.\n\nAbracos,\nAna - Fuega AI" }
    , whatsapp :=
        { es := "Hola! Soy de Fuega AI, te escribi la semana pasada. Solo queria saber si te interesa explorar como hacer crecer {business_name} en linea. Sin compromiso!"
        , pt := "Ola! Sou da Fuega AI, te escrevi semana passada. So queria saber se tem interesse em explorar como fazer {business_name} crescer online. Sem compromisso!" } }

/-- The `"final"` entry of `FOLLOWUP_TEMPLATES`. -/
def finalTemplates : FollowupTemplates :=
    { email_subject :=
        { es := "Ultimo mensaje — aqui estamos para {business_name}"
        , pt := "Ultima mensagem — estamos aqui para {business_name}" }
    , email_body :=
        { es := "Hola!\n\nEntiendo que estas ocupado/a. Este es mi ultimo mensaje por ahora.\n\nSi en algun momento quieres explorar como hacer crecer tu negocio digitalmente, aqui estamos. Solo responde a este correo y con gusto te ayudamos.\n\nTe deseo mucho exito con {business_name}!\n\nSaludos,\nAna - Fuega AI"
        , pt := "Ola!\n\nEntendo que esta ocupado/a. Esta e minha ultima mensagem por agora.\n\nSe em algum momento quiser explorar como fazer seu negocio crescer digitalmente, estamos aqui. So responda este email e teremos prazer em ajudar.\n\nDesejo muito sucesso com {business_name}!\n\nAbracos,\nAna - Fuega AI" }
    , whatsapp :=
        { es := "Hola! Entiendo que estas ocupado/a. Si en algun momento quieres explorar como hacer crecer tu negocio digitalmente, aqui estamos. Mucho exito!"
        , pt := "Ola! Entendo que esta ocupado/a. Se em algum momento quiser explorar como fazer seu negocio crescer online, estamos aqui. Muito sucesso!" } }

/-- `FOLLOWUP_TEMPLATES`, keyed by follow-up type. -/
def FOLLOWUP_TEMPLATES : String → Option FollowupTemplates := fun t =>
  if t = "initial" then some initialTemplates
  else if t = "followup_1" then some followup1Templates
  else if t = "followup_2" then some followup2Templates
  else if t = "final" then some finalTemplates
  else none

/-- Substitute `\x7bname\x7d` placeholders, as Python's `str.format` does for
the simple named fields these templates use. Every placeholder appearing in
the embedded templates is bound by `_build_personalization`, so the
missing-key branch (Python `KeyError`) is never taken on the code's inputs. -/
def pyFormatAux (vars : List (String × String)) : Nat → List Char → List Char
  | 0, _ => []
  | _, [] => []
  | fuel + 1, c :: rest =>
    if c = lbraceChar then
      let key := rest.takeWhile (fun d => d ≠ rbraceChar)
      let rest2 := (rest.dropWhile (fun d => d ≠ rbraceChar)).drop 1
      ((vars.lookup (String.mk key)).getD "").toList ++ pyFormatAux vars fuel rest2
    else c :: pyFormatAux vars fuel rest

/-- Python `template.format(**vars)` for named string fields. -/
def pyFormat (tpl : String) (vars : List (String × String)) : String :=
  String.mk (pyFormatAux vars tpl.toList.length tpl.toList)

/-- Result of `_build_personalization`. -/
structure Personalization where
  business_name : String
  google_rating_line : String
  digital_gap_line : String
  value_prop_line : String
  specific_benefit : String
deriving DecidableEq, Repr

/-- Python truthiness of an optional numeric column (`if lead.google_rating:`):
false for `None` and for zero. -/
def numTruthy : Option Int → Bool
  | some n => n ≠ 0
  | none => false

/-- Embedding of `_build_personalization` from `followup.py`. -/
def build_personalization (lead : Lead) : Personalization :=
  let lang := match lead.language with
    | some l => if l = "" then "es" else l
    | none => "es"
  let google_rating_line :=
    if numTruthy lead.google_rating then
      let base :=
        if lang = "pt" then
          "uma avaliacao de " ++ toString ((lead.google_rating).getD 0) ++ " estrelas no Google"
        else
          "una calificacion de " ++ toString ((lead.google_rating).getD 0) ++ " estrellas en Google"
      if numTruthy lead.review_count then
        if lang = "pt" then base ++ " com " ++ toString ((lead.review_count).getD 0) ++ " avaliacoes"
        else base ++ " con " ++ toString ((lead.review_count).getD 0) ++ " resenas"
      else base
    else
      if lang = "pt" then "uma boa reputacao" else "buena reputacion"
  let gaps : List String :=
    (if lead.has_website = some false then
      [if lang = "pt" then "nao tem site" else "no tiene pagina web"] else []) ++
    (if lead.has_social = some false then
      [if lang = "pt" then "pouca presenca em redes sociais" else "poca presencia en redes sociales"] else [])
  let digital_gap_line :=
    if gaps.isEmpty then
      if lang = "pt" then "poderia ter mais presenca digital" else "podria tener mas presencia digital"
    else
      if lang = "es" then String.intercalate " y " gaps else String.intercalate " e " gaps
  let value_prop_line :=
    if lead.has_website = some false then
      if lang = "pt" then "Podemos criar um site profissional para voce em menos de 2 semanas"
      else "Te podemos crear una pagina web profesional en menos de 2 semanas"
    else if lead.has_social = some false then
      if lang = "pt" then "Gerenciamos suas redes sociais para atrair mais clientes"
      else "Manejamos tus redes sociales para atraer mas clientes"
    else
      if lang = "pt" then "Otimizamos sua presenca digital para voce aparecer mais no Google"
      else "Optimizamos tu presencia digital para que aparezcas mas en Google"
  let specific_benefit :=
    if lead.has_website = some false then
      if lang = "pt" then "Criar um site profissional pode aumentar suas vendas em ate 30%."
      else "Crear una pagina web profesional puede aumentar tus ventas hasta un 30%."
    else if lead.has_social = some false then
      if lang = "pt" then "Negocios com redes sociais ativas recebem em media 40% mais consultas."
      else "Negocios con redes sociales activas reciben en promedio 40% mas consultas."
    else
      if lang = "pt" then "Uma estrategia digital completa pode dobrar sua visibilidade online em 30 dias."
      else "Una estrategia digital completa puede duplicar tu visibilidad en linea en 30 dias."
  { business_name := lead.business_name
  , google_rating_line := google_rating_line
  , digital_gap_line := digital_gap_line
  , value_prop_line := value_prop_line
  , specific_benefit := specific_benefit }

/-- The keyword-argument dictionary passed to `str.format`. -/
def personalizationVars (p : Personalization) : List (String × String) :=
  [("business_name", p.business_name),
   ("google_rating_line", p.google_rating_line),
   ("digital_gap_line", p.digital_gap_line),
   ("value_prop_line", p.value_prop_line),
   ("specific_benefit", p.specific_benefit)]

/-- Python `needle in hay` on strings (substring containment). -/
def strContains (hay needle : String) : Bool :=
  (List.range (hay.toList.length + 1)).any
    (fun i => needle.toList.isPrefixOf (hay.toList.drop i))

/-- Embedding of `_get_next_followup_step`: the next cadence entry, or
`none` once the touch counter has consumed the whole schedule. -/
def get_next_followup_step (lead : Lead) : Option FollowupStep :=
  FOLLOWUP_SCHEDULE[lead.followup_count.getD 0]?

/-- The dictionary returned by `generate_followup`. The `messages` sub-dict
is flattened into three optional fields keyed exactly as the code keys them. -/
structure FollowupResult where
  lead_id : Nat
  business_name : String
  followup_type : String
  followup_number : Nat
  total_followups : Nat
  channel : String
  language : String
  email_subject : Option String
  email_body : Option String
  whatsapp_message : Option String
  dry_run : Bool
  stage_updated : Option String
  new_stage : Option String
deriving DecidableEq, Repr

/-- Embedding of `generate_followup`. Returns the (possibly updated) lead
row together with the rendered result or the raised error message; error
paths leave the lead exactly as it was (the exception is raised before any
mutation). -/
def generate_followup (lead : Lead) (dry_run : Bool) (now : Nat) :
    Lead × Except String FollowupResult :=
  match get_next_followup_step lead with
  | none =>
      (lead, Except.error
        ("All follow-ups exhausted for lead " ++ squote ++ lead.business_name ++ squote))
  | some next_step =>
    let followup_type := next_step.ftype
    let channel := next_step.channel
    let lang0 := match lead.language with
      | some l => if l = "" then "es" else l
      | none => "es"
    let lang := if lang0 = "es" ∨ lang0 = "pt" then lang0 else "es"
    match FOLLOWUP_TEMPLATES followup_type with
    | none => (lead, Except.error ("Unknown follow-up type: " ++ followup_type))
    | some templates =>
      let vars := personalizationVars (build_personalization lead)
      let email_subject :=
        if strContains channel "email" then
          some (pyFormat (pickLang templates.email_subject lang) vars) else none
      let email_body :=
        if strContains channel "email" then
          some (pyFormat (pickLang templates.email_body lang) vars) else none
      let whatsapp_message :=
        if strContains channel "whatsapp" then
          some (pyFormat (pickLang templates.whatsapp lang) vars) else none
      let count := lead.followup_count.getD 0
      if dry_run then
        (lead, Except.ok
          { lead_id := lead.id
          , business_name := lead.business_name
          , followup_type := followup_type
          , followup_number := count + 1
          , total_followups := FOLLOWUP_SCHEDULE.length
          , channel := channel
          , language := lang
          , email_subject := email_subject
          , email_body := email_body
          , whatsapp_message := whatsapp_message
          , dry_run := true
          , stage_updated := none
          , new_stage := none })
      else
        let newCount := count + 1
        let stage1 :=
          if lead.stage = LeadStage.outreach_drafted then LeadStage.outreach_sent
          else lead.stage
        let exhausted := FOLLOWUP_SCHEDULE.length ≤ newCount
        let stage2 := if exhausted then LeadStage.lost else stage1
        let lead' := { lead with
          followup_count := some newCount
        , last_followup_at := some now
        , stage := stage2 }
        (lead', Except.ok
          { lead_id := lead.id
          , business_name := lead.business_name
          , followup_type := followup_type
          , followup_number := count + 1
          , total_followups := FOLLOWUP_SCHEDULE.length
          , channel := channel
          , language := lang
          , email_subject := email_subject
          , email_body := email_body
          , whatsapp_message := whatsapp_message
          , dry_run := false
          , stage_updated := if exhausted then some "lost" else none
          , new_stage := some (leadStageValue stage2) })

/-! ## Message bus (`backend/app/core/message_bus.py`) -/

/-- Recursive glob matching over character lists, anchored at both ends, as
`fnmatch.fnmatch` behaves on the patterns this repository subscribes with:
`*` matches any (possibly empty) sequence of characters (across `.`), `?`
matches exactly one character, and any other character matches itself.
Character-class patterns (`[seq]`) appear nowhere in the repository and are
treated as literal characters. Every recursive call shrinks
`pattern.length + text.length`, so the fuel argument (seeded one above that
sum by `globMatch`) never reaches zero. -/
def globMatchAux : Nat → List Char → List Char → Bool
  | 0, _, _ => false
  | _ + 1, [], [] => true
  | _ + 1, [], _ :: _ => false
  | fuel + 1, c :: ps, s =>
    if c = '*' then
      globMatchAux fuel ps s ||
        (match s with
         | [] => false
         | _ :: s' => globMatchAux fuel (c :: ps) s')
    else
      match s with
      | [] => false
      | x :: s' => if c = '?' then globMatchAux fuel ps s' else c = x && globMatchAux fuel ps s'

/-- Anchored glob match of a pattern against a text. -/
def globMatch (p s : List Char) : Bool :=
  globMatchAux (p.length + s.length + 1) p s

/-- Python `fnmatch.fnmatch(name, pattern)` (case handling is the identity
on the posix platform the backend runs on). -/
def fnmatch (name pattern : String) : Bool :=
  globMatch pattern.toList name.toList

/-- A subscribed handler, abstracted to its observable behavior on the
published message: whether it is a coroutine function (`isAsync`) and
whether invoking it raises (`fails`). `hid` identifies the handler so that
theorems can speak about which handler bodies actually ran. -/
structure BusHandler where
  hid : Nat
  isAsync : Bool
  fails : Bool
deriving DecidableEq, Repr

/-- One `{event, data, source}` message as appended to the bus history. -/
structure BusMsg where
  event : String
  data : Payload
  source : String
deriving DecidableEq, Repr

/-- The bus state: pattern → handler-list subscriptions in insertion order
(Python dicts preserve it), and the bounded history buffer. -/
structure MessageBus where
  subscribers : List (String × List BusHandler)
  history : List BusMsg
deriving DecidableEq, Repr

/-- `MessageBus.MAX_HISTORY`. -/
def MAX_HISTORY : Nat := 1000

/-- Outcome of one `publish` call: the new bus state, the ids of the
handlers whose bodies ran (in the order they ran), and the id of the
synchronous handler whose exception escaped to the caller, if any. -/
structure PublishOut where
  bus : MessageBus
  invoked : List Nat
  raised : Option Nat
deriving DecidableEq, Repr

/-- The matching handlers in dispatch order: the publish loop walks the
subscription dict in insertion order and, for each pattern matching the
event, its handler list in order. -/
def matchingHandlers (subs : List (String × List BusHandler)) (event : String) :
    List BusHandler :=
  (subs.filter (fun pr => fnmatch event pr.1)).flatMap (fun pr => pr.2)

/-- The dispatch loop body of `publish`: synchronous handlers are called
inline (an exception aborts the loop and propagates), coroutine handlers
are collected into `tasks` to be awaited afterwards. Returns the inline
invocations made, the collected tasks, and the escaping exception if any. -/
def dispatchLoop : List BusHandler → List Nat → List BusHandler →
    List Nat × List BusHandler × Option Nat
  | [], inv, tasks => (inv, tasks, none)
  | h :: rest, inv, tasks =>
    if h.isAsync then dispatchLoop rest inv (tasks ++ [h])
    else if h.fails then (inv ++ [h.hid], tasks, some h.hid)
    else dispatchLoop rest (inv ++ [h.hid]) tasks

/-- Embedding of `MessageBus.publish`: append to the bounded history, call
every matching handler, then `asyncio.gather(*tasks, return_exceptions=True)`
the collected coroutines — their failures are swallowed. If a synchronous
handler raises, the loop aborts: later handlers are never called, the
already-collected coroutines are never awaited (so their bodies never run),
and the exception propagates to the caller of `publish`. -/
def publish (bus : MessageBus) (event : String) (data : Payload) (source : String) :
    PublishOut :=
  let m : BusMsg := ⟨event, data, source⟩
  let h := bus.history ++ [m]
  let h := if MAX_HISTORY < h.length then h.drop (h.length - MAX_HISTORY) else h
  let bus := { bus with history := h }
  match dispatchLoop (matchingHandlers bus.subscribers event) [] [] with
  | (inv, _, some e) => { bus := bus, invoked := inv, raised := some e }
  | (inv, tasks, none) =>
      { bus := bus, invoked := inv ++ tasks.map (fun t => t.hid), raised := none }

/-! ## Workflow engine data model (`backend/app/core/workflow_engine.py`,
schema from `backend/alembic/versions/001_initial.py`) -/

/-- `WorkflowStatus` enum. -/
inductive WorkflowStatus where
  | pending
  | running
  | paused_for_approval
  | completed
  | failed
  | cancelled
deriving DecidableEq, Repr

/-- `StepStatus` enum. -/
inductive StepStatus where
  | pending
  | running
  | completed
  | failed
  | skipped
  | awaiting_approval
deriving DecidableEq, Repr

/-- `HITLMode` enum (`auto` / `approve` / `manual`). -/
inductive HITLMode where
  | auto
  | approve
  | manual
deriving DecidableEq, Repr

/-- `ApprovalStatus` enum. -/
inductive ApprovalStatus where
  | pending
  | approved
  | rejected
  | expired
deriving DecidableEq, Repr

/-- String value of an `ApprovalStatus` (`.value` in Python). -/
def approvalStatusValue : ApprovalStatus → String
  | ApprovalStatus.pending => "pending"
  | ApprovalStatus.approved => "approved"
  | ApprovalStatus.rejected => "rejected"
  | ApprovalStatus.expired => "expired"

/-- One row of `approval_queue` (the `ApprovalRequest` model). -/
structure ApprovalRec where
  id : Nat
  agent_slug : String
  action_name : String
  payload : Payload
  context : Option Payload
  status : ApprovalStatus
  decided_by : Option Nat
  decided_at : Option Nat
  rejection_reason : Option String
  modified_payload : Option Payload
  created_at : Nat
  expires_at : Nat
deriving DecidableEq, Repr

/-- One row of `workflow_runs` (the `WorkflowRun` model), restricted to the
fields the engine reads or writes. The run context maps step ids (plus any
caller-provided initial keys) to structured step outputs. -/
structure Run where
  id : Nat
  workflow_name : String
  status : WorkflowStatus
  current_step_id : Option String
  trigger : String
  context : List (String × Payload)
  error_message : Option String
  started_at : Option Nat
  completed_at : Option Nat
deriving DecidableEq, Repr

/-- One row of `workflow_steps` (the `WorkflowStep` model) for the run being
modelled; `cost_usd` is a float column abstracted to `Int`, as the engine
only copies it through. -/
structure StepRec where
  step_id : String
  agent_slug : Option String
  action : String
  status : StepStatus
  output_data : Option Payload
  cost_usd : Int
  duration_ms : Int
  retry_count : Nat
  approval_id : Option Nat
  error_message : Option String
  started_at : Option Nat
  completed_at : Option Nat
deriving DecidableEq, Repr

/-- The `retry_on_low_score` sub-config of a step definition. -/
structure RetryCfg where
  threshold : Int
  max_revisions : Nat
  retry_step : String
deriving DecidableEq, Repr

/-- One step definition of a workflow config
(`{id, agent?, action, next?, requires_human_approval?, retry_on_low_score?}`). -/
structure StepCfg where
  id : String
  agent : Option String
  action : String
  next : Option String
  requires_human_approval : Bool
  retry_on_low_score : Option RetryCfg
deriving DecidableEq, Repr

/-- One row of `agent_action_configs` (the `AgentActionConfig` model). -/
structure HitlCfg where
  agent_slug : String
  action_name : String
  mode : HITLMode
deriving DecidableEq, Repr

/-- What one `agent.think` call returns (`{parsed?, content, cost_usd,
duration_ms}`); failures are the `raise` alternative of `AgentOutcome`. -/
structure AgentResult where
  parsed : Option Payload
  content : String
  cost_usd : Int
  duration_ms : Int
deriving DecidableEq, Repr

/-- Outcome of one agent invocation: a result dict, or a raised exception
with its message. -/
inductive AgentOutcome where
  | ok : AgentResult → AgentOutcome
  | raise : String → AgentOutcome

/-- An event published on the message bus, as observed by subscribers. The
engine treats the bus as advisory, so engine-level theorems record events
rather than dispatching handlers (the repository's only subscriber is an
async websocket relay whose failures `publish` swallows). -/
structure EventRec where
  name : String
  data : Payload
deriving DecidableEq, Repr

/-- The ambient environment of one engine call: the `workflows` YAML config,
the registered agent slugs, the agent oracle (indexed by how many agent
invocations happened so far), the `agent_action_configs` table, and the
clock (in hours, for the 24-hour approval expiry). -/
structure Env where
  workflows : List (String × List StepCfg)
  agents : List String
  oracle : Nat → AgentOutcome
  hitl : List HitlCfg
  now : Nat

/-- The mutable state a single run's engine operations touch: the run row,
its step rows, the approval queue, the approval id sequence, the events
published so far, and the number of agent invocations made. -/
structure SysState where
  run : Run
  steps : List StepRec
  approvals : List ApprovalRec
  next_approval_id : Nat
  events : List EventRec
  calls : Nat
deriving DecidableEq, Repr

/-- Append a published event (the engine's `message_bus.publish`). -/
def pub (st : SysState) (name : String) (data : Payload) : SysState :=
  { st with events := st.events ++ [⟨name, data⟩] }

/-- `HITL_CONTROLLED_ACTIONS` from `workflow_engine.py`. -/
def HITL_CONTROLLED_ACTIONS : List String :=
  ["send_email", "post_tweet", "make_api_call", "update_lead",
   "draft_outreach", "format_and_publish", "send"]

/-- Row lookup in `agent_action_configs` by (agent, action). -/
def lookupHitlCfg (cfgs : List HitlCfg) (agent action : String) : Option HitlCfg :=
  cfgs.find? (fun c => c.agent_slug == agent && c.action_name == action)

/-- Find the step row with the given `step_id` (`scalar_one_or_none`; step
ids within a run are unique because they mirror the config's dict keys). -/
def findStep (steps : List StepRec) (sid : String) : Option StepRec :=
  steps.find? (fun s => s.step_id == sid)

/-- Update the step row with the given `step_id`. -/
def updateStep (steps : List StepRec) (sid : String) (f : StepRec → StepRec) :
    List StepRec :=
  steps.map (fun s => if s.step_id == sid then f s else s)

/-- Find the step row linked to the given approval id. -/
def findStepByApproval (steps : List StepRec) (aid : Nat) : Option StepRec :=
  steps.find? (fun s => s.approval_id == some aid)

/-- Update the step row linked to the given approval id. -/
def updateStepByApproval (steps : List StepRec) (aid : Nat) (f : StepRec → StepRec) :
    List StepRec :=
  steps.map (fun s => if s.approval_id == some aid then f s else s)

/-- Find an approval row by id. -/
def findApproval (l : List ApprovalRec) (aid : Nat) : Option ApprovalRec :=
  l.find? (fun a => a.id == aid)

/-- Update an approval row by id. -/
def updateApproval (l : List ApprovalRec) (aid : Nat) (f : ApprovalRec → ApprovalRec) :
    List ApprovalRec :=
  l.map (fun a => if a.id == aid then f a else a)

/-- Find a step config by id (`steps_config.get(current_step_id)`). -/
def findCfg (cfg : List StepCfg) (sid : String) : Option StepCfg :=
  cfg.find? (fun c => c.id == sid)

/-- Python dict assignment `ctx[k] = v`: overwrite in place if the key is
present (insertion order preserved), else append. -/
def setCtx (ctx : List (String × Payload)) (k : String) (v : Payload) :
    List (String × Payload) :=
  if ctx.any (fun kv => kv.1 == k) then
    ctx.map (fun kv => if kv.1 == k then (k, v) else kv)
  else ctx ++ [(k, v)]

/-- `step_result.get("parsed") or {"raw": step_result.get("content", "")}`:
a falsy `parsed` (absent or empty dict) falls back to the raw wrapper. -/
def outputFromResult (r : AgentResult) : Payload :=
  match r.parsed with
  | some p => if p.isEmpty then [("raw", JVal.str r.content)] else p
  | none => [("raw", JVal.str r.content)]

/-- `step.output_data.get("overall_score", 10) if step.output_data else 10`,
followed by the `score < threshold` comparison: a non-numeric stored score
makes that comparison raise `TypeError` (the `error` alternative), which the
surrounding `except` block turns into a failed step and run. -/
def overallScore (output : Option Payload) : Except Unit Int :=
  match output with
  | none => Except.ok 10
  | some p =>
    match p.lookup "overall_score" with
    | some (JVal.num n) => Except.ok n
    | some (JVal.str _) => Except.error ()
    | none => Except.ok 10

/-- The effective HITL mode for (agent, action): the configured row's mode,
defaulting to APPROVE when no row exists
(`config.mode if config else HITLMode.APPROVE`). -/
def hitlMode (cfgs : List HitlCfg) (agent action : String) : HITLMode :=
  match lookupHitlCfg cfgs agent action with
  | some c => c.mode
  | none => HITLMode.approve

/-- Result dict of `check_hitl`. -/
structure HitlResult where
  proceed : Bool
  payload : Option Payload
  approval_id : Option Nat
  reason : Option String
deriving DecidableEq, Repr

/-- Embedding of `check_hitl`: look up the action-mode row for
(agent, action) — absence defaults to APPROVE — and either pass the action
through (`auto`), refuse it permanently (`manual`), or create a pending
`ApprovalRequest` expiring 24 hours from now and publish
`approval.requested` with a 200-character payload summary (`approve`).
The `created_at` column default (creation time = now) is not part of the
sources under `src/` (the ORM class body is absent from `models.py`); it is
modelled from the spec, which states an ApprovalRequest records its
creation time and `expiry = now + 24h`. -/
def check_hitl (env : Env) (st : SysState) (agent_slug action_name : String)
    (payload : Payload) (context : Option Payload) : SysState × HitlResult :=
  match hitlMode env.hitl agent_slug action_name with
  | HITLMode.auto =>
      (st, { proceed := true, payload := some payload, approval_id := none, reason := none })
  | HITLMode.manual =>
      (st, { proceed := false, payload := none, approval_id := none, reason := some "manual_only" })
  | HITLMode.approve =>
    let aid := st.next_approval_id
    let approval : ApprovalRec :=
      { id := aid
      , agent_slug := agent_slug
      , action_name := action_name
      , payload := payload
      , context := context
      , status := ApprovalStatus.pending
      , decided_by := none
      , decided_at := none
      , rejection_reason := none
      , modified_payload := none
      , created_at := env.now
      , expires_at := env.now + 24 }
    let st := { st with
      approvals := st.approvals ++ [approval]
    , next_approval_id := aid + 1 }
    let st := pub st "approval.requested"
      [("approval_id", JVal.num aid), ("agent_slug", JVal.str agent_slug),
       ("action_name", JVal.str action_name),
       ("payload_summary", JVal.str ((pyReprPayload payload).take 200))]
    (st, { proceed := false, payload := none, approval_id := some aid,
           reason := some "awaiting_approval" })

/-! ## Execution loop (`WorkflowEngine._execute_workflow`) -/

/-- How one iteration of the `while current_step_id:` loop leaves the
engine: continue with a new current step pointer (`next`), break out of the
loop into the completion epilogue (`brk`, when the config or the step row
is missing), or return from `_execute_workflow` altogether (`stop`, at the
two suspension points and the failure paths). -/
inductive IterOut where
  | next : SysState → Option String → IterOut
  | brk : SysState → IterOut
  | stop : SysState → IterOut

/-- The completion epilogue after the loop: mark the run COMPLETED and
publish `workflow.<name>.completed`. -/
def finishRun (env : Env) (st : SysState) : SysState :=
  let st := { st with run := { st.run with
    status := WorkflowStatus.completed, completed_at := some env.now } }
  pub st ("workflow." ++ st.run.workflow_name ++ ".completed")
    [("run_id", JVal.num st.run.id)]

/-- The unconditional human-approval gate suspension (loop step 1): step
AWAITING_APPROVAL and run PAUSED_FOR_APPROVAL in the same commit, then the
`workflow.approval_needed` event. -/
def gateSuspend (st : SysState) (current : String) : SysState :=
  let st := { st with
    steps := updateStep st.steps current
      (fun s => { s with status := StepStatus.awaiting_approval })
  , run := { st.run with
      status := WorkflowStatus.paused_for_approval
    , current_step_id := some current } }
  pub st "workflow.approval_needed"
    [("run_id", JVal.num st.run.id), ("step_id", JVal.str current),
     ("workflow", JVal.str st.run.workflow_name)]

/-- Mark the current step RUNNING and publish `agent.<slug>.running`. -/
def markRunning (env : Env) (st : SysState) (current : String) (step_cfg : StepCfg) :
    SysState :=
  let st := { st with
    steps := updateStep st.steps current
      (fun s => { s with status := StepStatus.running, started_at := some env.now }) }
  pub st ("agent." ++ (step_cfg.agent.getD "system") ++ ".running")
    [("run_id", JVal.num st.run.id), ("step_id", JVal.str current),
     ("action", JVal.str step_cfg.action),
     ("workflow", JVal.str st.run.workflow_name)]

/-- A fatal step failure: step FAILED with the error, run FAILED with
`Step <id> failed: <error>`, both completion-stamped. Used by the
`except Exception` handler and by the unregistered-agent branch. -/
def failState (env : Env) (st : SysState) (current msg : String) : SysState :=
  { st with
    steps := updateStep st.steps current (fun s => { s with
      status := StepStatus.failed
    , error_message := some msg
    , completed_at := some env.now })
  , run := { st.run with
      status := WorkflowStatus.failed
    , error_message := some ("Step " ++ current ++ " failed: " ++ msg)
    , completed_at := some env.now } }

/-- Record a successful agent invocation: consume the oracle call, store the
step output, cost and duration, and thread the output into the run context
under the step id. -/
def recordOutput (st : SysState) (current : String) (res : AgentResult) : SysState :=
  let output := outputFromResult res
  { st with
    calls := st.calls + 1
  , steps := updateStep st.steps current (fun s => { s with
      output_data := some output
    , cost_usd := res.cost_usd
    , duration_ms := res.duration_ms })
  , run := { st.run with context := setCtx st.run.context current output } }

/-- The HITL-gate suspension (loop step 5): step AWAITING_APPROVAL (linked
to the approval request when one was created) and run PAUSED_FOR_APPROVAL
in the same commit, then the `workflow.approval_needed` event. -/
def hitlSuspend (st : SysState) (current : String) (approval_id : Option Nat) :
    SysState :=
  let st := { st with
    steps := updateStep st.steps current (fun s =>
      let s := { s with status := StepStatus.awaiting_approval }
      match approval_id with
      | some aid => { s with approval_id := some aid }
      | none => s)
  , run := { st.run with
      status := WorkflowStatus.paused_for_approval
    , current_step_id := some current } }
  pub st "workflow.approval_needed"
    [("run_id", JVal.num st.run.id), ("step_id", JVal.str current),
     ("workflow", JVal.str st.run.workflow_name),
     ("approval_id",
       match approval_id with
       | some aid => JVal.num aid
       | none => JVal.str "None"),
     ("reason", JVal.str "awaiting_approval")]

/-- Mark the current step COMPLETED. -/
def markCompleted (env : Env) (st : SysState) (current : String) : SysState :=
  { st with
    steps := updateStep st.steps current (fun s => { s with
      status := StepStatus.completed, completed_at := some env.now }) }

/-- Take the retry-on-low-score jump: increment the current step's retry
counter and point the run at the configured retry step. -/
def retryJump (st : SysState) (current retry_step : String) : SysState :=
  { st with
    steps := updateStep st.steps current (fun s => { s with
      retry_count := s.retry_count + 1 })
  , run := { st.run with current_step_id := some retry_step } }

/-- Advance the run pointer to the step config's `next`. -/
def advanceState (st : SysState) (nxt : Option String) : SysState :=
  { st with run := { st.run with current_step_id := nxt } }

/-- The retry-on-low-score policy check (loop step 7) followed by the
advance (loop step 8), applied after the step was marked COMPLETED. A
non-numeric stored `overall_score` makes the Python comparison raise
`TypeError`, landing in the `except` branch. -/
def retryOrAdvance (env : Env) (st : SysState) (current : String)
    (step_cfg : StepCfg) : IterOut :=
  match step_cfg.retry_on_low_score with
  | some rc =>
    match overallScore ((findStep st.steps current).bind (fun s => s.output_data)) with
    | Except.error _ => IterOut.stop (failState env st current "TypeError")
    | Except.ok score =>
      if score < rc.threshold ∧
          (findStep st.steps current).elim 0 (fun s => s.retry_count)
            < rc.max_revisions then
        IterOut.next (retryJump st current rc.retry_step) (some rc.retry_step)
      else
        IterOut.next (advanceState st step_cfg.next) step_cfg.next
  | none => IterOut.next (advanceState st step_cfg.next) step_cfg.next

/-- The tail of a loop iteration after the HITL gate answered: suspend when
it declined, otherwise publish `agent.<slug>.completed`, mark the step
COMPLETED and apply the retry-or-advance policy. The non-controlled path
reuses it with an immediate pass-through answer. -/
def afterHitlCheck (env : Env) (st1 : SysState) (current : String)
    (step_cfg : StepCfg) (slug : String) (res : AgentResult) (r : HitlResult) :
    IterOut :=
  if r.proceed then
    let st := pub st1 ("agent." ++ slug ++ ".completed")
      [("run_id", JVal.num st1.run.id), ("step_id", JVal.str current),
       ("action", JVal.str step_cfg.action),
       ("cost_usd", JVal.num res.cost_usd),
       ("duration_ms", JVal.num res.duration_ms)]
    retryOrAdvance env (markCompleted env st current) current step_cfg
  else
    IterOut.stop (hitlSuspend st1 current r.approval_id)

def execAgentOk (env : Env) (st : SysState) (current : String)
    (step_cfg : StepCfg) (slug : String) (res : AgentResult) : IterOut :=
  let st := recordOutput st current res
  let output := outputFromResult res
  if HITL_CONTROLLED_ACTIONS.contains step_cfg.action then
    let pr := check_hitl env st slug step_cfg.action output
      (some [("run_id", JVal.num st.run.id),
             ("step_id", JVal.str current),
             ("workflow", JVal.str st.run.workflow_name)])
    afterHitlCheck env pr.1 current step_cfg slug res pr.2
  else
    afterHitlCheck env st current step_cfg slug res
      { proceed := true, payload := some output, approval_id := none, reason := none }

/-- One iteration of the execution loop body for the current step id.
Prompt construction (`_build_step_prompt`) is not modelled: the agent is an
oracle, and the prompt text flows only into the oracle call.
`_persist_leads_from_step` is not modelled either: it only touches `Lead`
rows (outside this state) and swallows its own exceptions. -/
def execStep (env : Env) (cfg : List StepCfg) (st : SysState) (current : String) :
    IterOut :=
  match findCfg cfg current with
  | none => IterOut.brk st
  | some step_cfg =>
    match findStep st.steps current with
    | none => IterOut.brk st
    | some _ =>
      if step_cfg.requires_human_approval then
        IterOut.stop (gateSuspend st current)
      else
        let st := markRunning env st current step_cfg
        match step_cfg.agent with
        | some slug =>
          if env.agents.contains slug then
            match env.oracle st.calls with
            | AgentOutcome.raise msg => IterOut.stop (failState env st current msg)
            | AgentOutcome.ok res => execAgentOk env st current step_cfg slug res
          else
            IterOut.stop (failState env st current ("Agent not registered: " ++ slug))
        | none =>
          retryOrAdvance env (markCompleted env st current) current step_cfg

/-- The `while current_step_id:` loop of `_execute_workflow`. A `fuel`
bound makes the recursion well-founded: an adversarial config whose `next`
pointers form a cycle makes the Python loop run forever, so the embedding
returns the state reached when fuel runs out; every theorem below either
holds for all fuel or supplies enough fuel for its concrete input. -/
def execLoop (env : Env) (cfg : List StepCfg) :
    Nat → SysState → Option String → SysState
  | 0, st, _ => st
  | _ + 1, st, none => finishRun env st
  | fuel + 1, st, some c =>
    match execStep env cfg st c with
    | IterOut.next st' cur' => execLoop env cfg fuel st' cur'
    | IterOut.brk st' => finishRun env st'
    | IterOut.stop st' => st'

/-- Embedding of `WorkflowEngine.start_workflow`: resolve the named
pipeline (a missing or empty definition raises `ValueError`), create the
run row (RUNNING, pointing at the first step) and one PENDING step row per
defined step, publish `workflow.<name>.started`, then run the loop. -/
def start_workflow (env : Env) (fuel : Nat) (workflow_name : String)
    (context : Option (List (String × Payload))) (trigger : String) :
    Except String SysState :=
  match env.workflows.lookup workflow_name with
  | none => Except.error ("Unknown workflow: " ++ workflow_name)
  | some steps_cfg =>
    if steps_cfg.isEmpty then
      Except.error ("Workflow " ++ squote ++ workflow_name ++ squote ++ " has no steps defined")
    else
      let first := steps_cfg.head?.map (fun c => c.id)
      let run : Run :=
        { id := 0
        , workflow_name := workflow_name
        , status := WorkflowStatus.running
        , current_step_id := first
        , trigger := trigger
        , context := context.getD []
        , error_message := none
        , started_at := some env.now
        , completed_at := none }
      let steps : List StepRec := steps_cfg.map (fun c =>
        { step_id := c.id
        , agent_slug := c.agent
        , action := c.action
        , status := StepStatus.pending
        , output_data := none
        , cost_usd := 0
        , duration_ms := 0
        , retry_count := 0
        , approval_id := none
        , error_message := none
        , started_at := none
        , completed_at := none })
      let st : SysState :=
        { run := run, steps := steps, approvals := [], next_approval_id := 0
        , events := [], calls := 0 }
      let st := pub st ("workflow." ++ workflow_name ++ ".started")
        [("run_id", JVal.num run.id)]
      Except.ok (execLoop env steps_cfg fuel st first)

/-- The tail of `approve_step`'s approved branch: reload the workflow
config and, when the approved step's definition has a `next` pointer,
re-enter the execution loop there (nothing happens otherwise). -/
def approveAdvance (env : Env) (fuel : Nat) (st : SysState) (sid : String) : SysState :=
  match env.workflows.lookup st.run.workflow_name with
  | none => st
  | some cfg =>
    match (findCfg cfg sid).bind (fun c => c.next) with
    | none => st
    | some nxt =>
      execLoop env cfg fuel
        { st with run := { st.run with current_step_id := some nxt } } (some nxt)

/-- Embedding of `WorkflowEngine.approve_step`: the run must be
PAUSED_FOR_APPROVAL and the named step must exist (the code does not check
that it is the awaiting one). On approval the step is COMPLETED, the run
RUNNING, and — when the step's config has a `next` pointer — the loop is
re-entered there. On rejection the step is FAILED and the run CANCELLED.
Errors (`ValueError`) are raised before any mutation, so the state is
returned unchanged alongside them. -/
def approve_step (env : Env) (fuel : Nat) (st : SysState) (run_id : Nat)
    (step_id : String) (approved : Bool) : SysState × Except String Unit :=
  if run_id ≠ st.run.id ∨ st.run.status ≠ WorkflowStatus.paused_for_approval then
    (st, Except.error "Workflow not in approval state")
  else
    match findStep st.steps step_id with
    | none => (st, Except.error ("Step " ++ step_id ++ " not found"))
    | some _ =>
      if approved then
        let st := { st with
          steps := updateStep st.steps step_id (fun s => { s with
            status := StepStatus.completed, completed_at := some env.now })
        , run := { st.run with status := WorkflowStatus.running } }
        (approveAdvance env fuel st step_id, Except.ok ())
      else
        let st := { st with
          steps := updateStep st.steps step_id (fun s => { s with
            status := StepStatus.failed, completed_at := some env.now })
        , run := { st.run with
            status := WorkflowStatus.cancelled, completed_at := some env.now } }
        (st, Except.ok ())

/-- The modified-payload substitution at the start of
`resume_from_approval`'s approved branch: a truthy `modified_payload` on
the approval replaces the linked step's output, and — when the run context
already holds the step's key — the context entry too. -/
def applyModifiedPayload (st : SysState) (approval_id : Nat) (step : StepRec) :
    SysState :=
  match findApproval st.approvals approval_id with
  | some ap =>
    match ap.modified_payload with
    | some p =>
      if p.isEmpty then st
      else
        let st := { st with
          steps := updateStepByApproval st.steps approval_id
            (fun s => { s with output_data := some p }) }
        if (st.run.context.lookup step.step_id).isSome then
          { st with run := { st.run with
              context := setCtx st.run.context step.step_id p } }
        else st
    | none => st
  | none => st

/-- The tail of `resume_from_approval`'s approved branch: reload the
workflow config and re-enter the loop at the resumed step's `next` pointer;
when the step was the last one, complete the run instead. -/
def resumeAdvance (env : Env) (fuel : Nat) (st : SysState) (sid : String) : SysState :=
  match env.workflows.lookup st.run.workflow_name with
  | none => st
  | some cfg =>
    match (findCfg cfg sid).bind (fun c => c.next) with
    | some nxt =>
      execLoop env cfg fuel
        { st with run := { st.run with current_step_id := some nxt } } (some nxt)
    | none =>
      { st with run := { st.run with
          status := WorkflowStatus.completed, completed_at := some env.now } }

/-- Embedding of `WorkflowEngine.resume_from_approval`: find the step
linked to the approval (none → no-op) and require the run to be
PAUSED_FOR_APPROVAL (otherwise no-op). On approval, substitute any truthy
modified payload, mark the step COMPLETED and the run RUNNING, and advance
(a missing `next` completes the run). On rejection the step is FAILED and
the run CANCELLED. -/
def resume_from_approval (env : Env) (fuel : Nat) (st : SysState)
    (approval_id : Nat) (approved : Bool) : SysState :=
  match findStepByApproval st.steps approval_id with
  | none => st
  | some step =>
    if st.run.status ≠ WorkflowStatus.paused_for_approval then st
    else if approved then
      let st := applyModifiedPayload st approval_id step
      let st := { st with
        steps := updateStepByApproval st.steps approval_id (fun s => { s with
          status := StepStatus.completed, completed_at := some env.now })
      , run := { st.run with status := WorkflowStatus.running } }
      resumeAdvance env fuel st step.step_id
    else
      { st with
        steps := updateStepByApproval st.steps approval_id (fun s => { s with
          status := StepStatus.failed, completed_at := some env.now })
      , run := { st.run with
          status := WorkflowStatus.cancelled, completed_at := some env.now } }

/-! ## Approval decision endpoints (`backend/app/api/approvals.py`) -/

/-- Request body of the approve endpoint. -/
structure ApproveBody where
  modified_payload : Option Payload
deriving DecidableEq, Repr

/-- An HTTP error: status code and detail. -/
structure HErr where
  code : Nat
  detail : String
deriving DecidableEq, Repr

/-- The body-to-row transfer of the approve endpoint:
`if body and body.modified_payload: item.modified_payload = body.modified_payload`
(a Pydantic model instance is truthy; an empty dict payload is not). -/
def decideModified (body : Option ApproveBody) (item : ApprovalRec) : Option Payload :=
  match body with
  | some b =>
    match b.modified_payload with
    | some p => if p.isEmpty then item.modified_payload else some p
    | none => item.modified_payload
  | none => item.modified_payload

/-- The row update the approve endpoint applies to a pending request. -/
def approveUpdate (user_id now : Nat) (newModified : Option Payload) :
    ApprovalRec → ApprovalRec := fun a =>
  { a with
    status := ApprovalStatus.approved
  , decided_by := some user_id
  , decided_at := some now
  , modified_payload := newModified }

/-- The row update the reject endpoint applies to a pending request. -/
def rejectUpdate (user_id now : Nat) (reason : String) :
    ApprovalRec → ApprovalRec := fun a =>
  { a with
    status := ApprovalStatus.rejected
  , decided_by := some user_id
  , decided_at := some now
  , rejection_reason := some reason }

/-- Embedding of `approve_action` (`POST /{approval_id}/approve`): 404 when
the request does not exist, 400 when it is no longer pending — both raised
before any mutation — otherwise mark it APPROVED (recording decider and
decision time, and storing a truthy modified payload from the body),
publish `approval.decided`, and resume any workflow paused on it. -/
def approve_action (env : Env) (fuel : Nat) (st : SysState) (approval_id : Nat)
    (body : Option ApproveBody) (user_id : Nat) : SysState × Except HErr String :=
  match findApproval st.approvals approval_id with
  | none => (st, Except.error ⟨404, "Approval request not found"⟩)
  | some item =>
    if item.status ≠ ApprovalStatus.pending then
      (st, Except.error ⟨400, "Approval is already " ++ approvalStatusValue item.status⟩)
    else
      let newApprovals := updateApproval st.approvals approval_id
        (approveUpdate user_id env.now (decideModified body item))
      let st := { st with approvals := newApprovals }
      let st := pub st "approval.decided"
        [("approval_id", JVal.num approval_id), ("agent_slug", JVal.str item.agent_slug),
         ("action_name", JVal.str item.action_name), ("status", JVal.str "approved"),
         ("decided_by", JVal.num user_id)]
      let st := resume_from_approval env fuel st approval_id true
      (st, Except.ok "approved")

/-- Embedding of `reject_action` (`POST /{approval_id}/reject`): 404 / 400
guards as for approve, then mark the request REJECTED with the reason,
publish `approval.decided`, and cancel any workflow paused on it. -/
def reject_action (env : Env) (fuel : Nat) (st : SysState) (approval_id : Nat)
    (reason : String) (user_id : Nat) : SysState × Except HErr String :=
  match findApproval st.approvals approval_id with
  | none => (st, Except.error ⟨404, "Approval request not found"⟩)
  | some item =>
    if item.status ≠ ApprovalStatus.pending then
      (st, Except.error ⟨400, "Approval is already " ++ approvalStatusValue item.status⟩)
    else
      let newApprovals := updateApproval st.approvals approval_id
        (rejectUpdate user_id env.now reason)
      let st := { st with approvals := newApprovals }
      let st := pub st "approval.decided"
        [("approval_id", JVal.num approval_id), ("agent_slug", JVal.str item.agent_slug),
         ("action_name", JVal.str item.action_name), ("status", JVal.str "rejected"),
         ("reason", JVal.str reason), ("decided_by", JVal.num user_id)]
      let st := resume_from_approval env fuel st approval_id false
      (st, Except.ok "rejected")

/-- The operations that can touch an existing run's state after it was
created: the two engine resume entry points and the two approval decision
endpoints (which call `resume_from_approval` themselves).
`start_workflow` always builds a fresh run and therefore never mutates an
existing one. -/
inductive EngineOp where
  | approveStepOp : Nat → String → Bool → EngineOp
  | resumeOp : Nat → Bool → EngineOp
  | approveActionOp : Nat → Option ApproveBody → Nat → EngineOp
  | rejectActionOp : Nat → String → Nat → EngineOp

/-- Apply one operation to the state (discarding HTTP-level results). -/
def applyOp (env : Env) (fuel : Nat) (st : SysState) : EngineOp → SysState
  | EngineOp.approveStepOp r s b => (approve_step env fuel st r s b).1
  | EngineOp.resumeOp a b => resume_from_approval env fuel st a b
  | EngineOp.approveActionOp a b u => (approve_action env fuel st a b u).1
  | EngineOp.rejectActionOp a r u => (reject_action env fuel st a r u).1

/-- Apply a sequence of operations left to right. -/
def applyOps (env : Env) (fuel : Nat) : SysState → List EngineOp → SysState
  | st, [] => st
  | st, op :: rest => applyOps env fuel (applyOp env fuel st op) rest

/-- The state carried by an `IterOut`, whichever way the iteration left the
loop. -/
def iterSt : IterOut → SysState
  | IterOut.next st _ => st
  | IterOut.brk st => st
  | IterOut.stop st => st

/-! ## Invariant predicates over engine states -/

/-- No step row of the state is AWAITING_APPROVAL. -/
def NoAwait (st : SysState) : Prop :=
  ∀ s ∈ st.steps, s.status ≠ StepStatus.awaiting_approval

/-- Whenever a step row is AWAITING_APPROVAL, the run is
PAUSED_FOR_APPROVAL (the invariant the spec asserts). -/
def AwaitImpliesPaused (st : SysState) : Prop :=
  ∀ s ∈ st.steps, s.status = StepStatus.awaiting_approval →
    st.run.status = WorkflowStatus.paused_for_approval

/-- All AWAITING_APPROVAL step rows share a single step id (at most one
step of the run is suspended at a time, up to step-id identity). -/
def AwaitShares (st : SysState) : Prop :=
  ∃ sid, ∀ s ∈ st.steps, s.status = StepStatus.awaiting_approval → s.step_id = sid

/-- The step rows carry pairwise distinct step ids (they are created from
the config dict's keys; a duplicate would make the engine's
`scalar_one_or_none` lookups raise). -/
def NodupIds (st : SysState) : Prop :=
  (st.steps.map (fun s => s.step_id)).Nodup

/-- Retry counters respect their configured budgets. -/
def stepRetryOK (cfg : List StepCfg) (s : StepRec) : Prop :=
  match findCfg cfg s.step_id with
  | some c =>
    match c.retry_on_low_score with
    | some rc => s.retry_count ≤ rc.max_revisions
    | none => True
  | none => True

instance (cfg : List StepCfg) (s : StepRec) : Decidable (stepRetryOK cfg s) := by
  unfold stepRetryOK
  split
  · split
    · exact Nat.decLe _ _
    · exact inferInstance
  · exact inferInstance

/-- Every step row's retry counter is within its configured budget. -/
def RetryBound (cfg : List StepCfg) (st : SysState) : Prop :=
  ∀ s ∈ st.steps, stepRetryOK cfg s

/-- Pointwise relation between step-row lists: same step ids in the same
positions, with retry counters only growing. -/
def retryLE (a b : List StepRec) : Prop :=
  List.Forall₂ (fun x y => x.step_id = y.step_id ∧ x.retry_count ≤ y.retry_count) a b

/-- States reachable through the engine's externally drivable operations,
with no restriction on which step a resume decision targets: start, the
execution loop it runs, `approve_step` and `resume_from_approval` with
arbitrary arguments. -/
inductive ReachedAny (env : Env) (fuel : Nat) : SysState → Prop where
  | started : ∀ name ctx trig st,
      start_workflow env fuel name ctx trig = Except.ok st → ReachedAny env fuel st
  | approvedStep : ∀ st rid sid b, ReachedAny env fuel st →
      ReachedAny env fuel (approve_step env fuel st rid sid b).1
  | resumed : ∀ st aid b, ReachedAny env fuel st →
      ReachedAny env fuel (resume_from_approval env fuel st aid b)

/-- States reachable through the engine's operations when every resume
decision targets the step actually awaiting approval (the discipline the
approvals API follows: it resolves the step through the approval link the
engine recorded when it suspended). -/
inductive Reached (env : Env) (fuel : Nat) : SysState → Prop where
  | started : ∀ name ctx trig st,
      start_workflow env fuel name ctx trig = Except.ok st → Reached env fuel st
  | approvedStep : ∀ st rid sid b s, Reached env fuel st →
      findStep st.steps sid = some s → s.status = StepStatus.awaiting_approval →
      Reached env fuel (approve_step env fuel st rid sid b).1
  | resumed : ∀ st aid b s, Reached env fuel st →
      findStepByApproval st.steps aid = some s →
      s.status = StepStatus.awaiting_approval →
      Reached env fuel (resume_from_approval env fuel st aid b)

/-! ## Concrete scenario fixtures

Small concrete environments used to instantiate the theorems below: a
two-step workflow suspending at an unconditional human gate, and a two-step
workflow suspending at the HITL gate of a controlled action. -/

/-- An empty system state (fallback for total extraction from `Except`). -/
def emptySys : SysState :=
  { run :=
      { id := 0, workflow_name := "", status := WorkflowStatus.pending
      , current_step_id := none, trigger := "manual", context := []
      , error_message := none, started_at := none, completed_at := none }
  , steps := [], approvals := [], next_approval_id := 0, events := [], calls := 0 }

/-- A constantly succeeding agent oracle producing `{"k": 1}`. -/
def okOracle : Nat → AgentOutcome := fun _ =>
  AgentOutcome.ok { parsed := some [("k", JVal.num 1)], content := "", cost_usd := 0, duration_ms := 0 }

/-- Workflow `a → b` where step `b` requires unconditional human approval. -/
def gateCfg : List StepCfg :=
  [{ id := "a", agent := some "elena", action := "scout_local_businesses"
   , next := some "b", requires_human_approval := false, retry_on_low_score := none },
   { id := "b", agent := none, action := ""
   , next := none, requires_human_approval := true, retry_on_low_score := none }]

/-- Environment for the unconditional-gate scenario. -/
def gateEnv : Env :=
  { workflows := [("wf", gateCfg)], agents := ["elena"], oracle := okOracle
  , hitl := [], now := 5 }

/-- The state after `start_workflow` on the gate scenario: step `a`
COMPLETED, step `b` AWAITING_APPROVAL, run PAUSED_FOR_APPROVAL. -/
def gateStart : SysState :=
  ((start_workflow gateEnv 8 "wf" none "manual").toOption).getD emptySys

/-- An agent oracle producing `{"y": 2}` on every call. -/
def hitlOracle : Nat → AgentOutcome := fun _ =>
  AgentOutcome.ok { parsed := some [("y", JVal.num 2)], content := "", cost_usd := 0, duration_ms := 0 }

/-- Workflow `b → c` where step `b` runs the HITL-controlled action `send`
(no `agent_action_configs` row exists, so the gate defaults to approve). -/
def hitlCfg : List StepCfg :=
  [{ id := "b", agent := some "elena", action := "send"
   , next := some "c", requires_human_approval := false, retry_on_low_score := none },
   { id := "c", agent := some "elena", action := "collect_metrics"
   , next := none, requires_human_approval := false, retry_on_low_score := none }]

/-- Environment for the HITL-gate scenario. -/
def hitlEnv : Env :=
  { workflows := [("wf", hitlCfg)], agents := ["elena"], oracle := hitlOracle
  , hitl := [], now := 3 }

/-- The state after `start_workflow` on the HITL scenario: step `b` executed
(output `{"y": 2}` in the step row and the run context), approval request 0
pending, step `b` AWAITING_APPROVAL with `approval_id = 0`, run
PAUSED_FOR_APPROVAL. -/
def hitlStart : SysState :=
  ((start_workflow hitlEnv 8 "wf" none "manual").toOption).getD emptySys

/-- The HITL scenario after its pending approval 0 was approved once. -/
def hitlDecided : SysState :=
  (approve_action hitlEnv 8 hitlStart 0 none 7).1

/-- An agent oracle whose structured output always scores 5. -/
def lowScoreOracle : Nat → AgentOutcome := fun _ =>
  AgentOutcome.ok
    { parsed := some [("overall_score", JVal.num 5)], content := "", cost_usd := 0, duration_ms := 0 }

/-- Workflow `w → r` where the review step `r` retries back to `w` on an
overall score below 7, at most twice. -/
def retryCfgFix : List StepCfg :=
  [{ id := "w", agent := some "elena", action := "write_content"
   , next := some "r", requires_human_approval := false, retry_on_low_score := none },
   { id := "r", agent := some "elena", action := "review_and_score"
   , next := none, requires_human_approval := false
   , retry_on_low_score := some { threshold := 7, max_revisions := 2, retry_step := "w" } }]

/-- Environment for the retry scenario. -/
def retryEnv : Env :=
  { workflows := [("wf", retryCfgFix)], agents := ["elena"], oracle := lowScoreOracle
  , hitl := [], now := 2 }

/-- The state after `start_workflow` on the retry scenario: the review loop
runs `w, r, w, r, w, r`, exhausting the two revisions, and the run ends
COMPLETED with `r.retry_count = 2`. -/
def retryStart : SysState :=
  ((start_workflow retryEnv 20 "wf" none "manual").toOption).getD emptySys

/-- A bus with two synchronous subscribers on `*`, the first of which
raises. -/
def failingSyncBus : MessageBus :=
  { subscribers := [("*", [⟨0, false, true⟩, ⟨1, false, false⟩])], history := [] }

/-- A bus with a failing async subscriber, a succeeding sync subscriber and
a succeeding async subscriber on `workflow.*`, plus an unrelated pattern. -/
def mixedBus : MessageBus :=
  { subscribers :=
      [("workflow.*", [⟨0, true, true⟩, ⟨1, false, false⟩, ⟨2, true, false⟩]),
       ("agent.*", [⟨3, false, true⟩])]
  , history := [] }

/-- The HITL scenario at the instant `resume_from_approval` is entered by
the approve endpoint after a decision carrying modified payload
`{"x": 1}`: the approval row is approved with the payload stored, the run
is still paused on the awaiting step `b`. -/
def hitlStored : SysState :=
  { hitlStart with
      approvals := updateApproval hitlStart.approvals 0
        (approveUpdate 7 3 (some [("x", JVal.num 1)])) }

/-- A drafted lead about to receive its first touch. -/
def leadDrafted : Lead :=
  { id := 1, business_name := "Cafe Luna", language := some "es"
  , stage := LeadStage.outreach_drafted, google_rating := some 4, review_count := some 87
  , has_website := some false, has_social := some true
  , followup_count := some 0, last_followup_at := none }

/-- A lead on its last cadence touch (counter 3 of 4). -/
def leadLastTouch : Lead :=
  { leadDrafted with
      stage := LeadStage.outreach_sent
    , followup_count := some 3
    , last_followup_at := some 100 }

/-- A lead whose cadence is exhausted (counter 4 of 4). -/
def leadExhausted : Lead :=
  { leadDrafted with
      stage := LeadStage.outreach_sent
    , followup_count := some 4
    , last_followup_at := some 200 }

/-- The step-row invariant carried through the execution loop for the
retry-policy analysis: pairwise distinct step ids and every retry counter
within its configured budget. -/
def StepsInv (cfg : List StepCfg) (st : SysState) : Prop :=
  NodupIds st ∧ RetryBound cfg st

/-- The invariant that holds between iterations of the execution loop:
pairwise distinct step ids and no step row suspended. -/
def LoopInv (st : SysState) : Prop :=
  NodupIds st ∧ NoAwait st

/-- The invariant of engine states at rest: pairwise distinct step ids,
every AWAITING_APPROVAL row implies a PAUSED_FOR_APPROVAL run, and all
AWAITING_APPROVAL rows share one step id. -/
def EngineInv (st : SysState) : Prop :=
  NodupIds st ∧ AwaitImpliesPaused st ∧ AwaitShares st

/-- What one loop iteration guarantees, by exit kind: a continuing or
breaking iteration keeps the in-loop invariant, a stopping one leaves a
state satisfying the at-rest invariant. -/
def iterAwaitInv (o : IterOut) : Prop :=
  match o with
  | IterOut.next st _ => LoopInv st
  | IterOut.brk st => LoopInv st
  | IterOut.stop st => EngineInv st

/-- The review step of the retry scenario: `retry_on_low_score` with
threshold 7, at most 2 revisions, jumping back to `w`. -/
def reviewCfg : StepCfg :=
  { id := "r", agent := some "elena", action := "review_and_score"
  , next := none, requires_human_approval := false
  , retry_on_low_score := some { threshold := 7, max_revisions := 2, retry_step := "w" } }

/-- The review step row mid-loop: output scored 5, no revision spent yet. -/
def retryRow : StepRec :=
  { step_id := "r", agent_slug := some "elena", action := "review_and_score"
  , status := StepStatus.running, output_data := some [("overall_score", JVal.num 5)]
  , cost_usd := 0, duration_ms := 0, retry_count := 0, approval_id := none
  , error_message := none, started_at := some 2, completed_at := none }

/-- The retry scenario mid-loop, about to apply the retry policy to `r`
with no revision spent. -/
def retryMid : SysState :=
  { run :=
      { id := 0, workflow_name := "wf", status := WorkflowStatus.running
      , current_step_id := some "r", trigger := "manual", context := []
      , error_message := none, started_at := some 2, completed_at := none }
  , steps := [retryRow], approvals := [], next_approval_id := 0, events := []
  , calls := 0 }

/-- The review step row with both revisions already spent. -/
def retryRowSpent : StepRec :=
  { retryRow with retry_count := 2 }

/-- The retry scenario mid-loop with the revision budget exhausted. -/
def retryMidSpent : SysState :=
  { retryMid with steps := [retryRowSpent] }

/-! # Theorems -/

/-- Unfolding lemma: the template table at each defined type key. -/
theorem followup_templates_eval :
    FOLLOWUP_TEMPLATES "initial" = some initialTemplates ∧
    FOLLOWUP_TEMPLATES "followup_1" = some followup1Templates ∧
    FOLLOWUP_TEMPLATES "followup_2" = some followup2Templates ∧
    FOLLOWUP_TEMPLATES "final" = some finalTemplates := by
  refine ⟨rfl, rfl, rfl, rfl⟩

/-- C8: for a contact with touch counter `n` strictly below the cadence
length 4, a successful non-dry `generate_followup` increments the counter
to `n + 1`, stamps the last touch with the current time, advances the stage
from drafted to sent exactly when the contact was still in the drafted
stage (the first send), and sets the terminal lost stage exactly when the
incremented counter reaches the cadence length. -/
theorem followup_send_updates_C8 (lead : Lead) (now : Nat)
    (h : lead.followup_count.getD 0 < FOLLOWUP_SCHEDULE.length) :
    FOLLOWUP_SCHEDULE.length = 4 ∧
    (∃ res, (generate_followup lead false now).2 = Except.ok res) ∧
    (generate_followup lead false now).1.followup_count =
      some (lead.followup_count.getD 0 + 1) ∧
    (generate_followup lead false now).1.last_followup_at = some now ∧
    (generate_followup lead false now).1.stage =
      (if lead.followup_count.getD 0 + 1 = 4 then LeadStage.lost
       else if lead.stage = LeadStage.outreach_drafted then LeadStage.outreach_sent
       else lead.stage) := by
  obtain ⟨i, b, la, stg, gr, rc, hw, hs, fc, lt⟩ := lead
  simp only [FOLLOWUP_SCHEDULE, List.length_cons, List.length_nil] at h ⊢
  rcases fc with _ | n
  · simp [generate_followup, get_next_followup_step, FOLLOWUP_SCHEDULE,
      FOLLOWUP_TEMPLATES]
  · simp only [Option.getD_some] at h
    interval_cases n <;>
      simp [generate_followup, get_next_followup_step, FOLLOWUP_SCHEDULE,
        FOLLOWUP_TEMPLATES]

/-- C8 witness: a drafted contact with counter 3 is sent its final touch
and transitions to the terminal lost stage. -/
theorem followup_send_updates_C8_witness :
    leadLastTouch.followup_count.getD 0 < FOLLOWUP_SCHEDULE.length ∧
    (generate_followup leadLastTouch false 50).1.followup_count = some 4 ∧
    (generate_followup leadLastTouch false 50).1.last_followup_at = some 50 ∧
    (generate_followup leadLastTouch false 50).1.stage = LeadStage.lost := by
  have h := followup_send_updates_C8 leadLastTouch 50 (by decide)
  exact ⟨by decide, h.2.2.1, h.2.2.2.1, h.2.2.2.2.trans (by decide)⟩

/-- C9: once the touch counter has reached the cadence length, a
`generate_followup` call — dry or not — raises the exhaustion `ValueError`
and leaves the contact row exactly as it was. -/
theorem followup_exhausted_C9 (lead : Lead) (dry_run : Bool) (now : Nat)
    (h : FOLLOWUP_SCHEDULE.length ≤ lead.followup_count.getD 0) :
    generate_followup lead dry_run now =
      (lead, Except.error
        ("All follow-ups exhausted for lead " ++ squote ++ lead.business_name ++ squote)) := by
  have hnone : get_next_followup_step lead = none := by
    unfold get_next_followup_step
    exact List.getElem?_eq_none h
  unfold generate_followup
  rw [hnone]

/-- C9 witness: a contact with counter 4 of 4 raises the exhaustion error
unchanged. -/
theorem followup_exhausted_C9_witness :
    FOLLOWUP_SCHEDULE.length ≤ leadExhausted.followup_count.getD 0 ∧
    generate_followup leadExhausted false 200 =
      (leadExhausted, Except.error
        ("All follow-ups exhausted for lead " ++ squote ++ "Cafe Luna" ++ squote)) := by
  exact ⟨by decide, followup_exhausted_C9 leadExhausted false 200 (by decide)⟩

/-- C10: below the cadence length, a dry run leaves the contact row
untouched and returns the same rendered messages, follow-up type and
channel that the non-dry call returns. -/
theorem followup_dry_run_C10 (lead : Lead) (now : Nat)
    (h : lead.followup_count.getD 0 < FOLLOWUP_SCHEDULE.length) :
    (generate_followup lead true now).1 = lead ∧
    (∃ rd rw,
      (generate_followup lead true now).2 = Except.ok rd ∧
      (generate_followup lead false now).2 = Except.ok rw ∧
      rd.email_subject = rw.email_subject ∧
      rd.email_body = rw.email_body ∧
      rd.whatsapp_message = rw.whatsapp_message ∧
      rd.followup_type = rw.followup_type ∧
      rd.channel = rw.channel) := by
  obtain ⟨i, b, la, stg, gr, rc, hw, hs, fc, lt⟩ := lead
  simp only [FOLLOWUP_SCHEDULE, List.length_cons, List.length_nil] at h
  rcases fc with _ | n
  · simp [generate_followup, get_next_followup_step, FOLLOWUP_SCHEDULE,
      FOLLOWUP_TEMPLATES]
  · simp only [Option.getD_some] at h
    interval_cases n <;>
      simp [generate_followup, get_next_followup_step, FOLLOWUP_SCHEDULE,
        FOLLOWUP_TEMPLATES]

/-- C10 witness: the drafted contact's dry run is side-effect-free and
matches the wet run's messages. -/
theorem followup_dry_run_C10_witness :
    (generate_followup leadDrafted true 50).1 = leadDrafted ∧
    (generate_followup leadDrafted true 50).2.toOption.map
        (fun r => (r.email_subject, r.whatsapp_message, r.followup_type, r.channel)) =
      (generate_followup leadDrafted false 50).2.toOption.map
        (fun r => (r.email_subject, r.whatsapp_message, r.followup_type, r.channel)) := by
  obtain ⟨h1, rd, rw, hd, hw, hes, heb, hwm, hft, hch⟩ :=
    followup_dry_run_C10 leadDrafted 50 (by decide)
  refine ⟨h1, ?_⟩
  rw [hd, hw]
  simp [Except.toOption, hes, hwm, hft, hch]

/-- C6: for an (agent, action) pair with no `agent_action_configs` row,
`check_hitl` behaves as APPROVE mode: it appends exactly one pending
`ApprovalRequest` carrying the proposed payload, whose expiry is its
creation time plus 24 hours, publishes `approval.requested` with the
200-character payload summary, and answers
`proceed = false, approval_id = <new id>, reason = "awaiting_approval"`. -/
theorem check_hitl_default_approve_C6 (env : Env) (st : SysState)
    (agent action : String) (payload : Payload) (ctx : Option Payload)
    (h : lookupHitlCfg env.hitl agent action = none) :
    check_hitl env st agent action payload ctx =
      ({ st with
          approvals := st.approvals ++
            [{ id := st.next_approval_id
             , agent_slug := agent
             , action_name := action
             , payload := payload
             , context := ctx
             , status := ApprovalStatus.pending
             , decided_by := none
             , decided_at := none
             , rejection_reason := none
             , modified_payload := none
             , created_at := env.now
             , expires_at := env.now + 24 }]
        , next_approval_id := st.next_approval_id + 1
        , events := st.events ++
            [⟨"approval.requested",
              [("approval_id", JVal.num st.next_approval_id),
               ("agent_slug", JVal.str agent),
               ("action_name", JVal.str action),
               ("payload_summary", JVal.str ((pyReprPayload payload).take 200))]⟩] },
       { proceed := false
       , payload := none
       , approval_id := some st.next_approval_id
       , reason := some "awaiting_approval" }) ∧
    (∀ a ∈ (check_hitl env st agent action payload ctx).1.approvals,
      a ∉ st.approvals →
        a.status = ApprovalStatus.pending ∧ a.payload = payload ∧
        a.expires_at = a.created_at + 24) := by
  refine ⟨?_, ?_⟩
  · unfold check_hitl hitlMode
    rw [h]
    rfl
  · intro a ha hnew
    unfold check_hitl hitlMode at ha
    rw [h] at ha
    simp only [pub, List.mem_append, List.mem_singleton] at ha
    rcases ha with ha | ha
    · exact absurd ha hnew
    · subst ha
      exact ⟨rfl, rfl, rfl⟩

/-- C6 witness: with no action-mode rows configured at all, checking the
controlled action `send` creates one pending request expiring 24 hours
after creation and declines to proceed. -/
theorem check_hitl_default_approve_C6_witness :
    lookupHitlCfg hitlEnv.hitl "elena" "send" = none ∧
    (check_hitl hitlEnv emptySys "elena" "send" [("k", JVal.num 1)] none).2.proceed = false ∧
    (check_hitl hitlEnv emptySys "elena" "send" [("k", JVal.num 1)] none).2.reason =
      some "awaiting_approval" ∧
    (check_hitl hitlEnv emptySys "elena" "send" [("k", JVal.num 1)] none).1.approvals.map
      (fun a => (a.status, a.expires_at, a.created_at)) =
      [(ApprovalStatus.pending, 27, 3)] := by
  have h := check_hitl_default_approve_C6 hitlEnv emptySys "elena" "send"
    [("k", JVal.num 1)] none rfl
  refine ⟨rfl, ?_, ?_, ?_⟩
  · rw [h.1]
  · rw [h.1]
  · rw [h.1]
    rfl

/-- Helper: dispatching over handlers with no failing synchronous handler
runs every synchronous handler inline and collects every coroutine. -/
theorem dispatchLoop_ok (hs : List BusHandler) :
    ∀ (inv : List Nat) (tasks : List BusHandler),
    (∀ x ∈ hs, x.isAsync = false → x.fails = false) →
    dispatchLoop hs inv tasks =
      (inv ++ (hs.filter (fun x => !x.isAsync)).map (fun x => x.hid),
       tasks ++ hs.filter (fun x => x.isAsync), none) := by
  induction hs with
  | nil => intro inv tasks _; simp [dispatchLoop]
  | cons h rest ih =>
    intro inv tasks hok
    by_cases ha : h.isAsync = true
    · rw [dispatchLoop, if_pos ha,
        ih inv (tasks ++ [h]) (fun x hx => hok x (List.mem_cons_of_mem h hx))]
      simp [ha]
    · have hsync : h.isAsync = false := by
        cases hb : h.isAsync
        · rfl
        · exact absurd hb ha
      have hfail : h.fails = false := hok h (List.mem_cons_self h rest) hsync
      rw [dispatchLoop, if_neg (by simp [hsync]), if_neg (by simp [hfail]),
        ih (inv ++ [h.hid]) tasks (fun x hx => hok x (List.mem_cons_of_mem h hx))]
      simp [hsync]

/-- Helper: a failing synchronous handler aborts the dispatch loop — the
handlers after it never run, the coroutines collected before it are never
awaited, and its exception escapes. -/
theorem dispatchLoop_fail (pre : List BusHandler) (hh : BusHandler)
    (post : List BusHandler) :
    ∀ (inv : List Nat) (tasks : List BusHandler),
    (∀ x ∈ pre, x.isAsync = false → x.fails = false) →
    hh.isAsync = false → hh.fails = true →
    dispatchLoop (pre ++ hh :: post) inv tasks =
      (inv ++ (pre.filter (fun x => !x.isAsync)).map (fun x => x.hid) ++ [hh.hid],
       tasks ++ pre.filter (fun x => x.isAsync), some hh.hid) := by
  induction pre with
  | nil =>
    intro inv tasks _ hsync hfail
    rw [List.nil_append, dispatchLoop, if_neg (by simp [hsync]), if_pos (by simp [hfail])]
    simp
  | cons p rest ih =>
    intro inv tasks hok hsync hfail
    by_cases hp : p.isAsync = true
    · rw [List.cons_append, dispatchLoop, if_pos hp,
        ih inv (tasks ++ [p]) (fun x hx => hok x (List.mem_cons_of_mem p hx)) hsync hfail]
      simp [hp]
    · have hps : p.isAsync = false := by
        cases hb : p.isAsync
        · rfl
        · exact absurd hb hp
      have hpf : p.fails = false := hok p (List.mem_cons_self p rest) hps
      rw [List.cons_append, dispatchLoop, if_neg (by simp [hps]), if_neg (by simp [hpf]),
        ih (inv ++ [p.hid]) tasks (fun x hx => hok x (List.mem_cons_of_mem p hx)) hsync hfail]
      simp [hps]

/-- C2 counterexample: with two synchronous subscribers on `*` whose first
raises, `publish` lets the exception escape to its caller and never invokes
the second handler — refuting the claim that a failure in one matching
handler, synchronous or asynchronous, neither prevents the remaining
handlers nor propagates. -/
theorem publish_sync_failure_counterexample_C2 :
    (publish failingSyncBus "x" [] "system").raised = some 0 ∧
    (publish failingSyncBus "x" [] "system").invoked.contains 1 = false := by
  decide

/-- C2 (amended): a failure in an asynchronous matching handler neither
prevents any other matching handler from being invoked nor propagates to
the caller of `publish` — whenever every matching synchronous handler
succeeds, all matching handlers run (synchronous ones inline, coroutines
afterwards) and nothing is raised. A failing synchronous matching handler,
however, propagates its exception to the caller: the matching handlers
after it are never invoked, and the coroutines collected before it are
never awaited. -/
theorem publish_isolated_failure_C2_amended :
    (∀ (bus : MessageBus) (event : String) (data : Payload) (source : String),
      (∀ x ∈ matchingHandlers bus.subscribers event, x.isAsync = false → x.fails = false) →
      (publish bus event data source).raised = none ∧
      (publish bus event data source).invoked =
        ((matchingHandlers bus.subscribers event).filter
            (fun x => !x.isAsync)).map (fun x => x.hid) ++
          ((matchingHandlers bus.subscribers event).filter
            (fun x => x.isAsync)).map (fun x => x.hid)) ∧
    (∀ (bus : MessageBus) (event : String) (data : Payload) (source : String)
        (pre : List BusHandler) (hh : BusHandler) (post : List BusHandler),
      matchingHandlers bus.subscribers event = pre ++ hh :: post →
      (∀ x ∈ pre, x.isAsync = false → x.fails = false) →
      hh.isAsync = false → hh.fails = true →
      (publish bus event data source).raised = some hh.hid ∧
      (publish bus event data source).invoked =
        (pre.filter (fun x => !x.isAsync)).map (fun x => x.hid) ++ [hh.hid]) := by
  constructor
  · intro bus event data source hok
    have hd := dispatchLoop_ok (matchingHandlers bus.subscribers event) [] [] hok
    simp only [publish, hd]
    exact ⟨trivial, by simp⟩
  · intro bus event data source pre hh post hsplit hok hsync hfail
    have hd := dispatchLoop_fail pre hh post [] [] hok hsync hfail
    simp only [publish, hsplit, hd]
    exact ⟨trivial, by simp⟩

/-- C2 witness: on a bus where a failing async handler shares the matching
pattern with a succeeding sync handler and a succeeding async handler, all
three run and no exception reaches the publisher. -/
theorem publish_isolated_failure_C2_witness :
    (publish mixedBus "workflow.started" [] "system").raised = none ∧
    (publish mixedBus "workflow.started" [] "system").invoked = [1, 0, 2] := by
  have h := publish_isolated_failure_C2_amended.1 mixedBus "workflow.started" [] "system"
    (by decide)
  exact ⟨h.1, h.2.trans (by decide)⟩

/-! ## List plumbing lemmas -/

/-- `find?` commutes with a map that does not change the predicate's value
on any element. -/
theorem find?_map_pres {α : Type} (l : List α) (g : α → α) (q : α → Bool)
    (h : ∀ x, q (g x) = q x) :
    (l.map g).find? q = (l.find? q).map g := by
  induction l with
  | nil => rfl
  | cons a t ih =>
    by_cases ha : q a = true
    · rw [List.map_cons, List.find?_cons_of_pos _ (by rw [h]; exact ha),
        List.find?_cons_of_pos _ ha]
      rfl
    · have ha' : q a = false := by
        cases hq : q a
        · rfl
        · exact absurd hq ha
      rw [List.map_cons, List.find?_cons_of_neg _ (by simp [h, ha']),
        List.find?_cons_of_neg _ (by simp [ha']), ih]

/-- An element found in the left part of an append is found in the whole. -/
theorem find?_append_left {α : Type} {l l' : List α} {q : α → Bool} {a : α}
    (h : l.find? q = some a) : (l ++ l').find? q = some a := by
  induction l with
  | nil => simp [List.find?] at h
  | cons b t ih =>
    cases hb : q b
    · rw [List.find?_cons_of_neg _ (by simp [hb])] at h
      rw [List.cons_append, List.find?_cons_of_neg _ (by simp [hb])]
      exact ih h
    · rw [List.find?_cons_of_pos _ hb] at h
      rw [List.cons_append, List.find?_cons_of_pos _ hb]
      exact h

/-- The engine state `st'` extends `st`'s approval queue by appending. -/
def approvalsPfx (st st' : SysState) : Prop :=
  ∃ t, st'.approvals = st.approvals ++ t

theorem approvalsPfx_refl (st : SysState) : approvalsPfx st st :=
  ⟨[], by simp⟩

theorem approvalsPfx_trans {a b c : SysState}
    (h1 : approvalsPfx a b) (h2 : approvalsPfx b c) : approvalsPfx a c := by
  obtain ⟨t1, h1⟩ := h1
  obtain ⟨t2, h2⟩ := h2
  exact ⟨t1 ++ t2, by rw [h2, h1, List.append_assoc]⟩

/-! ## State-transformer field lemmas -/

@[simp] theorem pub_approvals (st : SysState) (n : String) (d : Payload) :
    (pub st n d).approvals = st.approvals := rfl

@[simp] theorem pub_steps (st : SysState) (n : String) (d : Payload) :
    (pub st n d).steps = st.steps := rfl

@[simp] theorem pub_run (st : SysState) (n : String) (d : Payload) :
    (pub st n d).run = st.run := rfl

@[simp] theorem gateSuspend_approvals (st : SysState) (c : String) :
    (gateSuspend st c).approvals = st.approvals := rfl

@[simp] theorem markRunning_approvals (env : Env) (st : SysState) (c : String)
    (sc : StepCfg) : (markRunning env st c sc).approvals = st.approvals := rfl

@[simp] theorem failState_approvals (env : Env) (st : SysState) (c m : String) :
    (failState env st c m).approvals = st.approvals := rfl

@[simp] theorem recordOutput_approvals (st : SysState) (c : String) (r : AgentResult) :
    (recordOutput st c r).approvals = st.approvals := rfl

@[simp] theorem hitlSuspend_approvals (st : SysState) (c : String) (a : Option Nat) :
    (hitlSuspend st c a).approvals = st.approvals := rfl

@[simp] theorem markCompleted_approvals (env : Env) (st : SysState) (c : String) :
    (markCompleted env st c).approvals = st.approvals := rfl

@[simp] theorem retryJump_approvals (st : SysState) (c r : String) :
    (retryJump st c r).approvals = st.approvals := rfl

@[simp] theorem advanceState_approvals (st : SysState) (n : Option String) :
    (advanceState st n).approvals = st.approvals := rfl

@[simp] theorem finishRun_approvals (env : Env) (st : SysState) :
    (finishRun env st).approvals = st.approvals := rfl

@[simp] theorem finishRun_steps (env : Env) (st : SysState) :
    (finishRun env st).steps = st.steps := rfl

theorem check_hitl_apfx (env : Env) (st : SysState) (a b : String) (p : Payload)
    (c : Option Payload) : approvalsPfx st (check_hitl env st a b p c).1 := by
  unfold check_hitl
  cases hitlMode env.hitl a b
  · exact approvalsPfx_refl st
  · exact ⟨[_], rfl⟩
  · exact approvalsPfx_refl st

theorem retryOrAdvance_approvals (env : Env) (st : SysState) (c : String)
    (sc : StepCfg) : (iterSt (retryOrAdvance env st c sc)).approvals = st.approvals := by
  unfold retryOrAdvance
  split
  · split
    · rfl
    · split
      · rfl
      · rfl
  · rfl

theorem afterHitlCheck_apfx (env : Env) (st1 : SysState) (c : String) (sc : StepCfg)
    (slug : String) (res : AgentResult) (r : HitlResult) :
    approvalsPfx st1 (iterSt (afterHitlCheck env st1 c sc slug res r)) := by
  unfold afterHitlCheck
  split
  · refine ⟨[], ?_⟩
    rw [retryOrAdvance_approvals]
    simp
  · exact ⟨[], by simp [iterSt]⟩

theorem execAgentOk_apfx (env : Env) (st : SysState) (c : String) (sc : StepCfg)
    (slug : String) (res : AgentResult) :
    approvalsPfx st (iterSt (execAgentOk env st c sc slug res)) := by
  unfold execAgentOk
  split
  · refine approvalsPfx_trans (approvalsPfx_trans ⟨[], ?_⟩ (check_hitl_apfx _ _ _ _ _ _))
      (afterHitlCheck_apfx _ _ _ _ _ _ _)
    simp
  · refine approvalsPfx_trans ⟨[], ?_⟩ (afterHitlCheck_apfx _ _ _ _ _ _ _)
    simp

theorem execStep_apfx (env : Env) (cfg : List StepCfg) (st : SysState) (c : String) :
    approvalsPfx st (iterSt (execStep env cfg st c)) := by
  unfold execStep
  split
  · exact approvalsPfx_refl st
  rename_i sc hcfg
  split
  · exact approvalsPfx_refl st
  split
  · exact ⟨[], by simp [iterSt]⟩
  split
  · rename_i slug hslug
    split
    · cases ho : env.oracle (markRunning env st c sc).calls with
      | ok res =>
        obtain ⟨t, ht⟩ := execAgentOk_apfx env (markRunning env st c sc) c sc slug res
        refine ⟨t, ?_⟩
        simp only [ho]
        simpa using ht
      | raise msg =>
        refine ⟨[], ?_⟩
        simp only [ho]
        simp [iterSt]
    · exact ⟨[], by simp [iterSt]⟩
  · refine ⟨[], ?_⟩
    rw [retryOrAdvance_approvals]
    simp

theorem execLoop_apfx (env : Env) (cfg : List StepCfg) :
    ∀ (fuel : Nat) (st : SysState) (cur : Option String),
    approvalsPfx st (execLoop env cfg fuel st cur) := by
  intro fuel
  induction fuel with
  | zero => intro st cur; exact approvalsPfx_refl st
  | succ n ih =>
    intro st cur
    rcases cur with _ | c
    · exact ⟨[], by simp [execLoop]⟩
    · have h1 := execStep_apfx env cfg st c
      rw [execLoop]
      rcases hstep : execStep env cfg st c with ⟨st', cur'⟩ | st' | st'
      · rw [hstep] at h1
        simp only [iterSt] at h1
        exact approvalsPfx_trans h1 (ih st' cur')
      · rw [hstep] at h1
        simp only [iterSt] at h1
        exact approvalsPfx_trans h1 ⟨[], by simp⟩
      · rw [hstep] at h1
        simpa only [iterSt] using h1

theorem applyModifiedPayload_approvals (st : SysState) (aid : Nat) (step : StepRec) :
    (applyModifiedPayload st aid step).approvals = st.approvals := by
  unfold applyModifiedPayload
  split
  · split
    · split
      · rfl
      · dsimp only
        split
        · rfl
        · rfl
    · rfl
  · rfl

theorem applyModifiedPayload_run_status (st : SysState) (aid : Nat) (step : StepRec) :
    (applyModifiedPayload st aid step).run.status = st.run.status := by
  unfold applyModifiedPayload
  split
  · split
    · split
      · rfl
      · dsimp only
        split
        · rfl
        · rfl
    · rfl
  · rfl

theorem resumeAdvance_apfx (env : Env) (fuel : Nat) (st : SysState) (sid : String) :
    approvalsPfx st (resumeAdvance env fuel st sid) := by
  unfold resumeAdvance
  split
  · exact approvalsPfx_refl st
  · split
    · exact execLoop_apfx env _ fuel _ _
    · exact ⟨[], by simp⟩

theorem approveAdvance_apfx (env : Env) (fuel : Nat) (st : SysState) (sid : String) :
    approvalsPfx st (approveAdvance env fuel st sid) := by
  unfold approveAdvance
  split
  · exact approvalsPfx_refl st
  · split
    · exact approvalsPfx_refl st
    · exact execLoop_apfx env _ fuel _ _

theorem resume_apfx (env : Env) (fuel : Nat) (st : SysState) (aid : Nat) (b : Bool) :
    approvalsPfx st (resume_from_approval env fuel st aid b) := by
  unfold resume_from_approval
  split
  · exact approvalsPfx_refl st
  rename_i step hfound
  split
  · exact approvalsPfx_refl st
  split
  · refine approvalsPfx_trans ⟨[], ?_⟩ (resumeAdvance_apfx env fuel _ step.step_id)
    simp [applyModifiedPayload_approvals]
  · exact ⟨[], by simp⟩

/-- Helper: `findApproval` after `updateApproval` sees the update applied to
the found row (approval ids are preserved by the update function). -/
theorem findApproval_update (l : List ApprovalRec) (aid aid' : Nat)
    (f : ApprovalRec → ApprovalRec) (hf : ∀ a, (f a).id = a.id) :
    findApproval (updateApproval l aid f) aid' =
      (findApproval l aid').map (fun a => if a.id == aid then f a else a) := by
  unfold findApproval updateApproval
  apply find?_map_pres
  intro x
  by_cases hx : (x.id == aid) = true
  · simp [hx, hf]
  · simp [hx]

/-- Helper: an approval row found before a resume is still found unchanged
afterwards (resume only appends new approval rows). -/
theorem findApproval_resume (env : Env) (fuel : Nat) (st2 : SysState)
    (aid : Nat) (b : Bool) (aid' : Nat) (x : ApprovalRec)
    (hx : findApproval st2.approvals aid' = some x) :
    findApproval (resume_from_approval env fuel st2 aid b).approvals aid' = some x := by
  obtain ⟨t, ht⟩ := resume_apfx env fuel st2 aid b
  unfold findApproval at hx ⊢
  rw [ht]
  exact find?_append_left hx

/-- C1: deciding an `ApprovalRequest` is valid only while it is pending.
Deciding a nonexistent request raises 404 and an already-decided one 400 —
in both cases before any mutation, so the state is returned unchanged and
the decided row keeps its status, decider, decision timestamp and payloads.
A pending request transitions to the terminal approved/rejected status with
decider and decision timestamp recorded, and every row already in a
non-pending status survives either endpoint entirely unchanged — each
row's status transitions at most once, from pending to a terminal value. -/
theorem approval_decided_once_C1 (env : Env) (fuel : Nat) (st : SysState)
    (aid : Nat) (body : Option ApproveBody) (uid : Nat) (reason : String) :
    (findApproval st.approvals aid = none →
      approve_action env fuel st aid body uid =
        (st, Except.error ⟨404, "Approval request not found"⟩) ∧
      reject_action env fuel st aid reason uid =
        (st, Except.error ⟨404, "Approval request not found"⟩)) ∧
    (∀ a, findApproval st.approvals aid = some a →
      a.status ≠ ApprovalStatus.pending →
      approve_action env fuel st aid body uid =
        (st, Except.error ⟨400, "Approval is already " ++ approvalStatusValue a.status⟩) ∧
      reject_action env fuel st aid reason uid =
        (st, Except.error ⟨400, "Approval is already " ++ approvalStatusValue a.status⟩)) ∧
    (∀ a, findApproval st.approvals aid = some a →
      a.status = ApprovalStatus.pending →
      (∃ a', findApproval (approve_action env fuel st aid body uid).1.approvals aid = some a' ∧
        a'.status = ApprovalStatus.approved ∧ a'.decided_by = some uid ∧
        a'.decided_at = some env.now ∧ a'.payload = a.payload) ∧
      (∃ a', findApproval (reject_action env fuel st aid reason uid).1.approvals aid = some a' ∧
        a'.status = ApprovalStatus.rejected ∧ a'.decided_by = some uid ∧
        a'.decided_at = some env.now ∧ a'.rejection_reason = some reason ∧
        a'.payload = a.payload)) ∧
    (∀ aid' b, findApproval st.approvals aid' = some b →
      b.status ≠ ApprovalStatus.pending →
      findApproval (approve_action env fuel st aid body uid).1.approvals aid' = some b ∧
      findApproval (reject_action env fuel st aid reason uid).1.approvals aid' = some b) := by
  refine ⟨?_, ?_, ?_, ?_⟩
  · intro h
    constructor
    · unfold approve_action
      rw [h]
    · unfold reject_action
      rw [h]
  · intro a ha hnp
    constructor
    · unfold approve_action
      rw [ha]
      simp [hnp]
    · unfold reject_action
      rw [ha]
      simp [hnp]
  · intro a ha hp
    have ha' := ha
    unfold findApproval at ha'
    have haid : (a.id == aid) = true := by
      have h0 := List.find?_some ha'
      exact h0
    constructor
    · refine ⟨approveUpdate uid env.now (decideModified body a) a, ?_, rfl, rfl, rfl, rfl⟩
      unfold approve_action
      rw [ha]
      simp only [hp, ne_eq, not_true_eq_false, if_false, ite_false]
      apply findApproval_resume
      simp only [pub_approvals]
      rw [findApproval_update st.approvals aid aid
        (approveUpdate uid env.now (decideModified body a)) (fun x => rfl), ha]
      simp [haid]
      intro hcon
      exact absurd (by simpa using haid) hcon
    · refine ⟨rejectUpdate uid env.now reason a, ?_, rfl, rfl, rfl, rfl, rfl⟩
      unfold reject_action
      rw [ha]
      simp only [hp, ne_eq, not_true_eq_false, if_false, ite_false]
      apply findApproval_resume
      simp only [pub_approvals]
      rw [findApproval_update st.approvals aid aid
        (rejectUpdate uid env.now reason) (fun x => rfl), ha]
      simp [haid]
      intro hcon
      exact absurd (by simpa using haid) hcon
  · intro aid' b hb hnp
    by_cases heq : aid' = aid
    · subst heq
      have h1 := (by
        unfold approve_action
        rw [hb]
        simp [hnp] : approve_action env fuel st aid' body uid =
          (st, Except.error ⟨400, "Approval is already " ++ approvalStatusValue b.status⟩))
      have h2 := (by
        unfold reject_action
        rw [hb]
        simp [hnp] : reject_action env fuel st aid' reason uid =
          (st, Except.error ⟨400, "Approval is already " ++ approvalStatusValue b.status⟩))
      rw [h1, h2]
      exact ⟨hb, hb⟩
    · have hb' := hb
      unfold findApproval at hb'
      have hbid : (b.id == aid') = true := by
        have h0 := List.find?_some hb'
        exact h0
      have hbaid : (b.id == aid) = false := by
        have hbeq : b.id = aid' := by simpa using hbid
        simp [hbeq, heq]
      constructor
      · unfold approve_action
        cases hfa : findApproval st.approvals aid with
        | none => exact hb
        | some a =>
          by_cases hps : a.status = ApprovalStatus.pending
          · simp only [hps, ne_eq, not_true_eq_false, if_false, ite_false]
            apply findApproval_resume
            simp only [pub_approvals]
            rw [findApproval_update st.approvals aid aid'
              (approveUpdate uid env.now (decideModified body a)) (fun x => rfl), hb]
            simp [hbaid]
            intro hcon
            exact absurd hcon (by simpa using hbaid)
          · simp [hps]
            exact hb
      · unfold reject_action
        cases hfa : findApproval st.approvals aid with
        | none => exact hb
        | some a =>
          by_cases hps : a.status = ApprovalStatus.pending
          · simp only [hps, ne_eq, not_true_eq_false, if_false, ite_false]
            apply findApproval_resume
            simp only [pub_approvals]
            rw [findApproval_update st.approvals aid aid'
              (rejectUpdate uid env.now reason) (fun x => rfl), hb]
            simp [hbaid]
            intro hcon
            exact absurd hcon (by simpa using hbaid)
          · simp [hps]
            exact hb

/-- C1 witness: deciding a nonexistent request and re-approving an
already-approved one are both rejected with the state untouched. -/
theorem approval_decided_once_C1_witness :
    approve_action hitlEnv 8 hitlDecided 99 none 7 =
      (hitlDecided, Except.error ⟨404, "Approval request not found"⟩) ∧
    reject_action hitlEnv 8 hitlDecided 99 "no" 7 =
      (hitlDecided, Except.error ⟨404, "Approval request not found"⟩) ∧
    approve_action hitlEnv 8 hitlDecided 0 none 7 =
      (hitlDecided, Except.error ⟨400, "Approval is already approved"⟩) := by
  have h1 := (approval_decided_once_C1 hitlEnv 8 hitlDecided 99 none 7 "no").1 (by decide)
  exact ⟨h1.1, h1.2, by rfl⟩

/-- Helper: `findStepByApproval` after `updateStepByApproval` sees the
update applied to the found row (approval links are preserved). -/
theorem findStepByApproval_update (l : List StepRec) (aid aid' : Nat)
    (f : StepRec → StepRec) (hf : ∀ s, (f s).approval_id = s.approval_id) :
    findStepByApproval (updateStepByApproval l aid f) aid' =
      (findStepByApproval l aid').map
        (fun s => if s.approval_id == some aid then f s else s) := by
  unfold findStepByApproval updateStepByApproval
  apply find?_map_pres
  intro x
  by_cases hx : (x.approval_id == some aid) = true
  · simp [hx, hf]
  · simp [hx]

/-- Helper: `approve_step` on a run that is not paused raises before any
mutation. -/
theorem approve_step_not_paused (env : Env) (fuel : Nat) (st : SysState)
    (rid : Nat) (sid : String) (b : Bool)
    (h : st.run.status ≠ WorkflowStatus.paused_for_approval) :
    approve_step env fuel st rid sid b =
      (st, Except.error "Workflow not in approval state") := by
  unfold approve_step
  rw [if_pos (Or.inr h)]

/-- Helper: `resume_from_approval` on a run that is not paused is a no-op. -/
theorem resume_not_paused (env : Env) (fuel : Nat) (st : SysState)
    (aid : Nat) (b : Bool)
    (h : st.run.status ≠ WorkflowStatus.paused_for_approval) :
    resume_from_approval env fuel st aid b = st := by
  unfold resume_from_approval
  split
  · rfl
  · rw [if_pos h]

/-- Helper: the approve endpoint never touches the run row or the step rows
of a run that is not paused (it only flips the approval row). -/
theorem approve_action_preserves (env : Env) (fuel : Nat) (st : SysState)
    (aid : Nat) (body : Option ApproveBody) (uid : Nat)
    (h : st.run.status ≠ WorkflowStatus.paused_for_approval) :
    (approve_action env fuel st aid body uid).1.run = st.run ∧
    (approve_action env fuel st aid body uid).1.steps = st.steps := by
  have hrun : ∀ st2 : SysState, st2.run.status ≠ WorkflowStatus.paused_for_approval →
      (resume_from_approval env fuel st2 aid true).run = st2.run := fun st2 h2 => by
    rw [resume_not_paused env fuel st2 aid true h2]
  have hsteps : ∀ st2 : SysState, st2.run.status ≠ WorkflowStatus.paused_for_approval →
      (resume_from_approval env fuel st2 aid true).steps = st2.steps := fun st2 h2 => by
    rw [resume_not_paused env fuel st2 aid true h2]
  unfold approve_action
  split
  · exact ⟨rfl, rfl⟩
  · split
    · exact ⟨rfl, rfl⟩
    · constructor
      · apply hrun
        exact h
      · apply hsteps
        exact h

/-- Helper: the reject endpoint never touches the run row or the step rows
of a run that is not paused. -/
theorem reject_action_preserves (env : Env) (fuel : Nat) (st : SysState)
    (aid : Nat) (reason : String) (uid : Nat)
    (h : st.run.status ≠ WorkflowStatus.paused_for_approval) :
    (reject_action env fuel st aid reason uid).1.run = st.run ∧
    (reject_action env fuel st aid reason uid).1.steps = st.steps := by
  have hrun : ∀ st2 : SysState, st2.run.status ≠ WorkflowStatus.paused_for_approval →
      (resume_from_approval env fuel st2 aid false).run = st2.run := fun st2 h2 => by
    rw [resume_not_paused env fuel st2 aid false h2]
  have hsteps : ∀ st2 : SysState, st2.run.status ≠ WorkflowStatus.paused_for_approval →
      (resume_from_approval env fuel st2 aid false).steps = st2.steps := fun st2 h2 => by
    rw [resume_not_paused env fuel st2 aid false h2]
  unfold reject_action
  split
  · exact ⟨rfl, rfl⟩
  · split
    · exact ⟨rfl, rfl⟩
    · constructor
      · apply hrun
        exact h
      · apply hsteps
        exact h

/-- Helper: a CANCELLED run is frozen — no sequence of resume or approval
operations ever changes its run row or its step rows again. -/
theorem cancelled_frozen (env : Env) (fuel : Nat) :
    ∀ (ops : List EngineOp) (st : SysState),
    st.run.status = WorkflowStatus.cancelled →
    (applyOps env fuel st ops).run = st.run ∧
    (applyOps env fuel st ops).steps = st.steps := by
  intro ops
  induction ops with
  | nil => intro st _; exact ⟨rfl, rfl⟩
  | cons op rest ih =>
    intro st h
    have hne : st.run.status ≠ WorkflowStatus.paused_for_approval := by
      rw [h]
      intro hcon
      cases hcon
    have hop : (applyOp env fuel st op).run = st.run ∧
        (applyOp env fuel st op).steps = st.steps := by
      cases op with
      | approveStepOp rid sid b =>
        have heq : applyOp env fuel st (EngineOp.approveStepOp rid sid b) = st := by
          show (approve_step env fuel st rid sid b).1 = st
          rw [approve_step_not_paused env fuel st rid sid b hne]
        rw [heq]
        exact ⟨rfl, rfl⟩
      | resumeOp aid b =>
        have heq : applyOp env fuel st (EngineOp.resumeOp aid b) = st := by
          show resume_from_approval env fuel st aid b = st
          rw [resume_not_paused env fuel st aid b hne]
        rw [heq]
        exact ⟨rfl, rfl⟩
      | approveActionOp aid body uid => exact approve_action_preserves env fuel st aid body uid hne
      | rejectActionOp aid reason uid => exact reject_action_preserves env fuel st aid reason uid hne
    obtain ⟨hr, hsteps⟩ := hop
    have h1 : (applyOp env fuel st op).run.status = WorkflowStatus.cancelled := by
      rw [hr, h]
    obtain ⟨hr2, hs2⟩ := ih (applyOp env fuel st op) h1
    constructor
    · show (applyOps env fuel (applyOp env fuel st op) rest).run = st.run
      rw [hr2, hr]
    · show (applyOps env fuel (applyOp env fuel st op) rest).steps = st.steps
      rw [hs2, hsteps]

/-- C4: rejecting the approval a paused run awaits marks the linked step
FAILED with a completion timestamp, marks the run CANCELLED with a
completion timestamp, and from then on no sequence of engine operations
(targeted resumes, arbitrary approve-step calls, or the approval
endpoints) ever changes the run row or any step row of that run again — in
particular no step ever transitions to RUNNING or COMPLETED afterwards. -/
theorem rejection_cancels_run_C4 (env : Env) (fuel : Nat) (st : SysState)
    (aid : Nat) (s : StepRec)
    (hs : findStepByApproval st.steps aid = some s)
    (hp : st.run.status = WorkflowStatus.paused_for_approval)
    (ha : s.status = StepStatus.awaiting_approval) :
    findStepByApproval (resume_from_approval env fuel st aid false).steps aid =
      some { s with status := StepStatus.failed, completed_at := some env.now } ∧
    (resume_from_approval env fuel st aid false).run.status =
      WorkflowStatus.cancelled ∧
    (resume_from_approval env fuel st aid false).run.completed_at = some env.now ∧
    (∀ ops : List EngineOp,
      (applyOps env fuel (resume_from_approval env fuel st aid false) ops).run =
        (resume_from_approval env fuel st aid false).run ∧
      (applyOps env fuel (resume_from_approval env fuel st aid false) ops).steps =
        (resume_from_approval env fuel st aid false).steps) := by
  have hsid : (s.approval_id == some aid) = true := by
    have h0 := List.find?_some (by
      have := hs
      unfold findStepByApproval at this
      exact this)
    exact h0
  have hres : resume_from_approval env fuel st aid false =
      { st with
        steps := updateStepByApproval st.steps aid (fun x => { x with
          status := StepStatus.failed, completed_at := some env.now })
      , run := { st.run with
          status := WorkflowStatus.cancelled, completed_at := some env.now } } := by
    unfold resume_from_approval
    rw [hs]
    simp [hp]
  refine ⟨?_, ?_, ?_, ?_⟩
  · rw [hres]
    show findStepByApproval (updateStepByApproval st.steps aid _) aid = _
    rw [findStepByApproval_update st.steps aid aid
      (fun x => { x with status := StepStatus.failed, completed_at := some env.now })
      (fun x => rfl), hs]
    simp [hsid]
    intro hcon
    exact absurd hsid (by simp [hcon])
  · rw [hres]
  · rw [hres]
  · intro ops
    apply cancelled_frozen env fuel ops
    rw [hres]

/-- C4 witness: rejecting the pending approval of the paused HITL scenario
cancels the run, fails step `b`, and freezes both against every further
operation. -/
theorem rejection_cancels_run_C4_witness :
    (resume_from_approval hitlEnv 8 hitlStart 0 false).run.status =
      WorkflowStatus.cancelled ∧
    (findStepByApproval (resume_from_approval hitlEnv 8 hitlStart 0 false).steps 0).map
      (fun s => s.status) = some StepStatus.failed ∧
    (applyOps hitlEnv 8 (resume_from_approval hitlEnv 8 hitlStart 0 false)
      [EngineOp.approveStepOp 0 "b" true, EngineOp.resumeOp 0 true]).run.status =
      WorkflowStatus.cancelled := by
  obtain ⟨h1, h2, h3, h4⟩ := rejection_cancels_run_C4 hitlEnv 8 hitlStart 0
    ((findStep hitlStart.steps "b").getD
      { step_id := "b", agent_slug := none, action := "", status := StepStatus.pending
      , output_data := none, cost_usd := 0, duration_ms := 0, retry_count := 0
      , approval_id := none, error_message := none, started_at := none, completed_at := none })
    (by decide) (by decide) (by decide)
  refine ⟨h2, ?_, ?_⟩
  · rw [h1]
    rfl
  · rw [(h4 [EngineOp.approveStepOp 0 "b" true, EngineOp.resumeOp 0 true]).1, h2]

/-- Helper: a Python dict assignment makes the assigned key map to the
assigned value. -/
theorem lookup_setCtx (ctx : List (String × Payload)) (k : String) (v : Payload) :
    (setCtx ctx k v).lookup k = some v := by
  unfold setCtx
  split
  · rename_i hany
    induction ctx with
    | nil => simp at hany
    | cons kv t ih =>
      rw [List.map_cons]
      by_cases hk : (kv.1 == k) = true
      · rw [if_pos hk]
        simp [List.lookup]
      · rw [if_neg hk]
        have hne : (k == kv.1) = false := by
          simp only [beq_eq_false_iff_ne, ne_eq]
          intro hcon
          exact hk (by simp [hcon])
        have hany' : t.any (fun kv => kv.1 == k) = true := by
          simp only [List.any_cons] at hany
          rcases Bool.or_eq_true_iff.mp hany with h | h
          · exact absurd h hk
          · exact h
        simp only [List.lookup, hne]
        exact ih hany'
  · rename_i hany
    induction ctx with
    | nil => simp [List.lookup]
    | cons kv t ih =>
      have hk : (kv.1 == k) = false := by
        by_cases h : (kv.1 == k) = true
        · exact absurd (by simp [List.any_cons, h]) hany
        · exact Bool.eq_false_iff.mpr h
      have hne : (k == kv.1) = false := by
        simp only [beq_eq_false_iff_ne, ne_eq]
        intro hcon
        rw [beq_eq_false_iff_ne] at hk
        exact hk (by simp [hcon])
      have hany' : ¬t.any (fun kv => kv.1 == k) = true := by
        intro h
        exact hany (by simp [List.any_cons, h])
      simp only [List.cons_append, List.lookup, hne]
      exact ih hany'

/-- C5 counterexample: an approve decision carrying the modified payload
`{}` (an empty dict) on the paused HITL scenario is accepted, but — because
Python's truthiness test skips falsy payloads both when storing
(`if body and body.modified_payload`) and when substituting
(`if approval and approval.modified_payload`) — step `b`'s output stays its
original `{"y": 2}` instead of becoming the carried payload, refuting the
claim as stated. -/
theorem approve_modified_payload_counterexample_C5 :
    hitlStart.run.status = WorkflowStatus.paused_for_approval ∧
    (findStepByApproval hitlStart.steps 0).map (fun s => s.status) =
      some StepStatus.awaiting_approval ∧
    (approve_action hitlEnv 8 hitlStart 0 (some ⟨some []⟩) 7).2 = Except.ok "approved" ∧
    (findStep (approve_action hitlEnv 8 hitlStart 0 (some ⟨some []⟩) 7).1.steps "b").map
      (fun s => s.output_data) = some (some [("y", JVal.num 2)]) ∧
    ¬ (findStep (approve_action hitlEnv 8 hitlStart 0 (some ⟨some []⟩) 7).1.steps "b").map
      (fun s => s.output_data) = some (some ([] : Payload)) := by
  refine ⟨rfl, rfl, rfl, rfl, ?_⟩
  decide

/-- C5 (amended): an approve decision whose stored modified payload is
non-empty — the endpoint stores the body's modified payload exactly when it
is non-empty — applied to a run paused on the linked awaiting step (whose
output entry is present in the run context, as the HITL suspension
guarantees) replaces the step output and the context entry with that
payload, marks the step COMPLETED, sets the run RUNNING, and re-enters the
execution loop at the step definition's `next` pointer. -/
theorem resume_modified_payload_C5_amended (env : Env) (fuel : Nat)
    (st : SysState) (aid : Nat) (s : StepRec) (ap : ApprovalRec) (p : Payload)
    (cfg : List StepCfg) (nxt : String)
    (hstep : findStepByApproval st.steps aid = some s)
    (hawait : s.status = StepStatus.awaiting_approval)
    (hpause : st.run.status = WorkflowStatus.paused_for_approval)
    (hap : findApproval st.approvals aid = some ap)
    (hmp : ap.modified_payload = some p)
    (hpe : p.isEmpty = false)
    (hctx : (st.run.context.lookup s.step_id).isSome = true)
    (hcfg : env.workflows.lookup st.run.workflow_name = some cfg)
    (hnext : (findCfg cfg s.step_id).bind (fun c => c.next) = some nxt) :
    (∀ (b : ApproveBody) (item : ApprovalRec), b.modified_payload = some p →
      decideModified (some b) item = some p) ∧
    (∃ stMid,
      resume_from_approval env fuel st aid true = execLoop env cfg fuel stMid (some nxt) ∧
      stMid.run.status = WorkflowStatus.running ∧
      stMid.run.current_step_id = some nxt ∧
      stMid.run.context = setCtx st.run.context s.step_id p ∧
      stMid.run.context.lookup s.step_id = some p ∧
      findStepByApproval stMid.steps aid =
        some { s with
                 output_data := some p
               , status := StepStatus.completed
               , completed_at := some env.now } ∧
      stMid.approvals = st.approvals) := by
  have hsid : (s.approval_id == some aid) = true := by
    have h0 := List.find?_some (by
      have := hstep
      unfold findStepByApproval at this
      exact this)
    exact h0
  constructor
  · intro b item hb
    unfold decideModified
    dsimp only
    rw [hb]
    simp [hpe]
  · have hmod : applyModifiedPayload st aid s =
        { st with
          steps := updateStepByApproval st.steps aid
            (fun x => { x with output_data := some p })
        , run := { st.run with context := setCtx st.run.context s.step_id p } } := by
      unfold applyModifiedPayload
      rw [hap]
      dsimp only
      rw [hmp]
      dsimp only
      simp only [hpe, Bool.false_eq_true, if_false]
      rw [if_pos (by exact hctx)]
    refine ⟨{ st with
        steps := updateStepByApproval (updateStepByApproval st.steps aid
            (fun x => { x with output_data := some p })) aid
          (fun x => { x with status := StepStatus.completed, completed_at := some env.now })
      , run := { st.run with
          context := setCtx st.run.context s.step_id p
        , status := WorkflowStatus.running
        , current_step_id := some nxt } }, ?_, rfl, rfl, rfl, lookup_setCtx _ _ _, ?_, rfl⟩
    · unfold resume_from_approval
      rw [hstep]
      simp only [hpause, ne_eq, not_true_eq_false, if_false, ite_false, if_true]
      rw [hmod]
      unfold resumeAdvance
      dsimp only
      rw [hcfg]
      dsimp only
      rw [hnext]
    · rw [findStepByApproval_update _ aid aid
        (fun x => { x with status := StepStatus.completed, completed_at := some env.now })
        (fun x => rfl)]
      rw [findStepByApproval_update st.steps aid aid
        (fun x => { x with output_data := some p }) (fun x => rfl), hstep]
      have hsid' : s.approval_id = some aid := by simpa using hsid
      simp [hsid']

/-- C5 witness: resuming the paused HITL scenario with stored modified
payload `{"x": 1}` substitutes it into step `b` and the context, re-enters
the loop at `c`, and the run ends COMPLETED — the scenario the spec gives. -/
theorem resume_modified_payload_C5_witness :
    (∃ stMid, resume_from_approval hitlEnv 8 hitlStored 0 true =
        execLoop hitlEnv hitlCfg 8 stMid (some "c") ∧
      stMid.run.status = WorkflowStatus.running ∧
      stMid.run.context.lookup "b" = some [("x", JVal.num 1)]) ∧
    (resume_from_approval hitlEnv 8 hitlStored 0 true).run.status =
      WorkflowStatus.completed ∧
    (findStep (resume_from_approval hitlEnv 8 hitlStored 0 true).steps "b").map
      (fun s => s.output_data) = some (some [("x", JVal.num 1)]) := by
  obtain ⟨hdec, stMid, h1, h2, h3, h4, h5, h6, h7⟩ :=
    resume_modified_payload_C5_amended hitlEnv 8 hitlStored 0
      ((findStepByApproval hitlStored.steps 0).getD
        { step_id := "b", agent_slug := none, action := "", status := StepStatus.pending
        , output_data := none, cost_usd := 0, duration_ms := 0, retry_count := 0
        , approval_id := none, error_message := none, started_at := none, completed_at := none })
      ((findApproval hitlStored.approvals 0).getD
        { id := 0, agent_slug := "", action_name := "", payload := [], context := none
        , status := ApprovalStatus.pending, decided_by := none, decided_at := none
        , rejection_reason := none, modified_payload := none, created_at := 0, expires_at := 0 })
      [("x", JVal.num 1)] hitlCfg "c"
      (by decide) (by decide) (by decide) (by decide) (by decide) (by decide)
      (by decide) (by decide) (by decide)
  refine ⟨⟨stMid, h1, h2, h5⟩, by decide, by decide⟩

/-! ## Retry-budget invariant machinery -/

/-- Updating a step row with an id-preserving function leaves the list of
step ids unchanged. -/
theorem updateStep_ids (steps : List StepRec) (c : String) (f : StepRec → StepRec)
    (hid : ∀ s, (f s).step_id = s.step_id) :
    (updateStep steps c f).map (fun s => s.step_id) =
      steps.map (fun s => s.step_id) := by
  unfold updateStep
  rw [List.map_map]
  refine List.map_congr_left (fun a _ => ?_)
  dsimp only [Function.comp]
  split
  · exact hid a
  · rfl

/-- `stepRetryOK` depends only on the step id and the retry counter. -/
theorem stepRetryOK_congr (cfg : List StepCfg) (s t : StepRec)
    (hid : t.step_id = s.step_id) (hrc : t.retry_count = s.retry_count)
    (h : stepRetryOK cfg s) : stepRetryOK cfg t := by
  unfold stepRetryOK at h ⊢
  rw [hid, hrc]
  exact h

/-- An update that keeps ids and retry counters keeps every row within its
budget. -/
theorem updateStep_retryOK (cfg : List StepCfg) (steps : List StepRec) (c : String)
    (f : StepRec → StepRec)
    (hid : ∀ s, (f s).step_id = s.step_id)
    (hrc : ∀ s, (f s).retry_count = s.retry_count)
    (h : ∀ s ∈ steps, stepRetryOK cfg s) :
    ∀ s ∈ updateStep steps c f, stepRetryOK cfg s := by
  intro x hx
  unfold updateStep at hx
  obtain ⟨t, ht, rfl⟩ := List.mem_map.mp hx
  split
  · exact stepRetryOK_congr cfg t (f t) (hid t) (hrc t) (h t ht)
  · exact h t ht

/-- With pairwise distinct step ids, any row whose id matches the lookup
key is the row `findStep` returns. -/
theorem mem_findStep_nodup (c : String) (s : StepRec) :
    ∀ steps : List StepRec, (steps.map (fun x => x.step_id)).Nodup →
      findStep steps c = some s →
      ∀ t ∈ steps, (t.step_id == c) = true → t = s := by
  intro steps
  induction steps with
  | nil => intro _ _ t ht _; cases ht
  | cons a l ih =>
    intro hnd hfind t ht hid
    rw [List.map_cons, List.nodup_cons] at hnd
    rcases List.mem_cons.mp ht with rfl | htl
    · unfold findStep at hfind
      simp only [List.find?, hid, Option.some.injEq] at hfind
      exact hfind
    · by_cases hqa : (a.step_id == c) = true
      · exfalso
        have h1 : t.step_id = c := by simpa using hid
        have h2 : a.step_id = c := by simpa using hqa
        have hmem : a.step_id ∈ l.map (fun x => x.step_id) := by
          rw [h2, ← h1]
          exact List.mem_map_of_mem _ htl
        exact hnd.1 hmem
      · have hqa2 : (a.step_id == c) = false := by
          cases hx : (a.step_id == c)
          · rfl
          · exact absurd hx hqa
        unfold findStep at hfind
        simp only [List.find?, hqa2] at hfind
        exact ih hnd.2 hfind t htl hid

/-- `findStep` after an id-preserving update returns the updated image of
the row it found before. -/
theorem findStep_updateStep (steps : List StepRec) (c : String) (f : StepRec → StepRec)
    (hid : ∀ s, (f s).step_id = s.step_id) :
    findStep (updateStep steps c f) c =
      (findStep steps c).map
        (fun x => if (x.step_id == c) = true then f x else x) := by
  unfold findStep updateStep
  refine find?_map_pres steps _ _ (fun x => ?_)
  dsimp only
  split
  · rw [hid x]
  · rfl

theorem StepsInv_of_steps_eq (cfg : List StepCfg) (st st2 : SysState)
    (h : st2.steps = st.steps) (hi : StepsInv cfg st) : StepsInv cfg st2 := by
  refine ⟨?_, ?_⟩
  · unfold NodupIds
    rw [h]
    exact hi.1
  · unfold RetryBound
    rw [h]
    exact hi.2

theorem StepsInv_updateStep (cfg : List StepCfg) (st st2 : SysState) (c : String)
    (f : StepRec → StepRec)
    (h : st2.steps = updateStep st.steps c f)
    (hid : ∀ s, (f s).step_id = s.step_id)
    (hrc : ∀ s, (f s).retry_count = s.retry_count)
    (hi : StepsInv cfg st) : StepsInv cfg st2 := by
  refine ⟨?_, ?_⟩
  · unfold NodupIds
    rw [h, updateStep_ids st.steps c f hid]
    exact hi.1
  · unfold RetryBound
    rw [h]
    exact updateStep_retryOK cfg st.steps c f hid hrc hi.2

theorem StepsInv_pub (cfg : List StepCfg) (st : SysState) (n : String) (d : Payload)
    (hi : StepsInv cfg st) : StepsInv cfg (pub st n d) :=
  StepsInv_of_steps_eq cfg st (pub st n d) rfl hi

theorem StepsInv_gateSuspend (cfg : List StepCfg) (st : SysState) (c : String)
    (hi : StepsInv cfg st) : StepsInv cfg (gateSuspend st c) :=
  StepsInv_updateStep cfg st (gateSuspend st c) c
    (fun s => { s with status := StepStatus.awaiting_approval })
    rfl (fun _ => rfl) (fun _ => rfl) hi

theorem StepsInv_markRunning (cfg : List StepCfg) (env : Env) (st : SysState)
    (c : String) (sc : StepCfg) (hi : StepsInv cfg st) :
    StepsInv cfg (markRunning env st c sc) :=
  StepsInv_updateStep cfg st (markRunning env st c sc) c
    (fun s => { s with status := StepStatus.running, started_at := some env.now })
    rfl (fun _ => rfl) (fun _ => rfl) hi

theorem StepsInv_failState (cfg : List StepCfg) (env : Env) (st : SysState)
    (c m : String) (hi : StepsInv cfg st) : StepsInv cfg (failState env st c m) :=
  StepsInv_updateStep cfg st (failState env st c m) c
    (fun s => { s with status := StepStatus.failed, error_message := some m, completed_at := some env.now })
    rfl (fun _ => rfl) (fun _ => rfl) hi

theorem StepsInv_recordOutput (cfg : List StepCfg) (st : SysState) (c : String)
    (res : AgentResult) (hi : StepsInv cfg st) :
    StepsInv cfg (recordOutput st c res) :=
  StepsInv_updateStep cfg st (recordOutput st c res) c
    (fun s => { s with output_data := some (outputFromResult res), cost_usd := res.cost_usd, duration_ms := res.duration_ms })
    rfl (fun _ => rfl) (fun _ => rfl) hi

theorem StepsInv_hitlSuspend (cfg : List StepCfg) (st : SysState) (c : String)
    (a : Option Nat) (hi : StepsInv cfg st) : StepsInv cfg (hitlSuspend st c a) :=
  StepsInv_updateStep cfg st (hitlSuspend st c a) c
    (fun s =>
      let s2 := { s with status := StepStatus.awaiting_approval }
      match a with
      | some aid => { s2 with approval_id := some aid }
      | none => s2)
    rfl (fun s => by cases a <;> rfl) (fun s => by cases a <;> rfl) hi

theorem StepsInv_markCompleted (cfg : List StepCfg) (env : Env) (st : SysState)
    (c : String) (hi : StepsInv cfg st) : StepsInv cfg (markCompleted env st c) :=
  StepsInv_updateStep cfg st (markCompleted env st c) c
    (fun s => { s with status := StepStatus.completed, completed_at := some env.now })
    rfl (fun _ => rfl) (fun _ => rfl) hi

/-- `check_hitl` never touches the step rows. -/
theorem check_hitl_steps (env : Env) (st : SysState) (a b : String) (p : Payload)
    (c : Option Payload) : (check_hitl env st a b p c).1.steps = st.steps := by
  unfold check_hitl
  cases hitlMode env.hitl a b <;> rfl

theorem StepsInv_check_hitl (cfg : List StepCfg) (env : Env) (st : SysState)
    (a b : String) (p : Payload) (c : Option Payload) (hi : StepsInv cfg st) :
    StepsInv cfg (check_hitl env st a b p c).1 :=
  StepsInv_of_steps_eq cfg st (check_hitl env st a b p c).1
    (check_hitl_steps env st a b p c) hi

/-- The retry-or-advance policy keeps distinct ids and bounded counters:
the only counter increment is guarded by `retry_count < max_revisions`
against the very row it updates. -/
theorem retryOrAdvance_stepsInv (env : Env) (cfg : List StepCfg) (st : SysState)
    (c : String) (sc : StepCfg) (hsc : findCfg cfg c = some sc)
    (hi : StepsInv cfg st) : StepsInv cfg (iterSt (retryOrAdvance env st c sc)) := by
  unfold retryOrAdvance
  split
  · rename_i rc hrc
    split
    · exact StepsInv_failState cfg env st c "TypeError" hi
    · rename_i score hscore
      split
      · rename_i hcond
        refine ⟨?_, ?_⟩
        · unfold NodupIds
          show ((updateStep st.steps c
              (fun s => { s with retry_count := s.retry_count + 1 })).map
              (fun s => s.step_id)).Nodup
          rw [updateStep_ids st.steps c
            (fun s => { s with retry_count := s.retry_count + 1 }) (fun _ => rfl)]
          exact hi.1
        · intro x hx
          have hx2 : x ∈ List.map
              (fun s => if (s.step_id == c) = true then
                { s with retry_count := s.retry_count + 1 } else s) st.steps := hx
          obtain ⟨t, ht, rfl⟩ := List.mem_map.mp hx2
          by_cases hq : (t.step_id == c) = true
          · rw [if_pos hq]
            cases hfs : findStep st.steps c with
            | none =>
              exact absurd hq (by simpa using List.find?_eq_none.mp hfs t ht)
            | some s0 =>
              have hts : t = s0 := mem_findStep_nodup c s0 st.steps hi.1 hfs t ht hq
              subst hts
              have hlt : t.retry_count < rc.max_revisions := by
                have h2 := hcond.2
                rw [hfs] at h2
                exact h2
              have hidc : t.step_id = c := by simpa using hq
              unfold stepRetryOK
              dsimp only
              rw [hidc, hsc]
              dsimp only
              rw [hrc]
              dsimp only
              omega
          · rw [if_neg hq]
            exact hi.2 t ht
      · exact StepsInv_of_steps_eq cfg st _ rfl hi
  · exact StepsInv_of_steps_eq cfg st _ rfl hi

theorem afterHitlCheck_stepsInv (env : Env) (cfg : List StepCfg) (st1 : SysState)
    (c : String) (sc : StepCfg) (slug : String) (res : AgentResult) (r : HitlResult)
    (hsc : findCfg cfg c = some sc) (hi : StepsInv cfg st1) :
    StepsInv cfg (iterSt (afterHitlCheck env st1 c sc slug res r)) := by
  unfold afterHitlCheck
  split
  · refine retryOrAdvance_stepsInv env cfg
      (markCompleted env (pub st1 ("agent." ++ slug ++ ".completed")
        [("run_id", JVal.num st1.run.id), ("step_id", JVal.str c),
         ("action", JVal.str sc.action),
         ("cost_usd", JVal.num res.cost_usd),
         ("duration_ms", JVal.num res.duration_ms)]) c) c sc hsc ?_
    exact StepsInv_markCompleted cfg env _ c (StepsInv_pub cfg st1 _ _ hi)
  · exact StepsInv_hitlSuspend cfg st1 c r.approval_id hi

theorem execAgentOk_stepsInv (env : Env) (cfg : List StepCfg) (st : SysState)
    (c : String) (sc : StepCfg) (slug : String) (res : AgentResult)
    (hsc : findCfg cfg c = some sc) (hi : StepsInv cfg st) :
    StepsInv cfg (iterSt (execAgentOk env st c sc slug res)) := by
  unfold execAgentOk
  split
  · exact afterHitlCheck_stepsInv env cfg _ c sc slug res _ hsc
      (StepsInv_check_hitl cfg env _ _ _ _ _ (StepsInv_recordOutput cfg st c res hi))
  · exact afterHitlCheck_stepsInv env cfg _ c sc slug res _ hsc
      (StepsInv_recordOutput cfg st c res hi)

theorem execStep_stepsInv (env : Env) (cfg : List StepCfg) (st : SysState) (c : String)
    (hi : StepsInv cfg st) : StepsInv cfg (iterSt (execStep env cfg st c)) := by
  unfold execStep
  split
  · exact hi
  rename_i sc hsc
  split
  · exact hi
  split
  · exact StepsInv_gateSuspend cfg st c hi
  split
  · rename_i slug hslug
    split
    · cases ho : env.oracle (markRunning env st c sc).calls with
      | ok res =>
        simp only [ho]
        exact execAgentOk_stepsInv env cfg (markRunning env st c sc) c sc slug res hsc
          (StepsInv_markRunning cfg env st c sc hi)
      | raise msg =>
        simp only [ho]
        exact StepsInv_failState cfg env (markRunning env st c sc) c msg
          (StepsInv_markRunning cfg env st c sc hi)
    · exact StepsInv_failState cfg env (markRunning env st c sc) c _
        (StepsInv_markRunning cfg env st c sc hi)
  · exact retryOrAdvance_stepsInv env cfg (markCompleted env (markRunning env st c sc) c)
      c sc hsc
      (StepsInv_markCompleted cfg env (markRunning env st c sc) c
        (StepsInv_markRunning cfg env st c sc hi))

/-- The whole execution loop keeps distinct step ids and every retry
counter within its configured budget. -/
theorem execLoop_stepsInv (env : Env) (cfg : List StepCfg) :
    ∀ (fuel : Nat) (st : SysState) (cur : Option String),
    StepsInv cfg st → StepsInv cfg (execLoop env cfg fuel st cur) := by
  intro fuel
  induction fuel with
  | zero => intro st cur hi; exact hi
  | succ n ih =>
    intro st cur hi
    rcases cur with _ | c
    · refine StepsInv_of_steps_eq cfg st _ ?_ hi
      simp [execLoop]
    · rw [execLoop]
      have h1 := execStep_stepsInv env cfg st c hi
      rcases hstep : execStep env cfg st c with ⟨st2, cur2⟩ | st2 | st2
      · rw [hstep] at h1
        exact ih st2 cur2 h1
      · rw [hstep] at h1
        exact StepsInv_of_steps_eq cfg st2 _ rfl h1
      · rw [hstep] at h1
        exact h1

/-- C3: under a `retry_on_low_score {threshold, max_revisions, retry_step}`
config, a completed step whose stored `overall_score` is below the
threshold while its retry counter is below `max_revisions` makes the
engine increment that counter and move the run pointer to `retry_step`
instead of `next`; once the counter has reached `max_revisions`, the run
advances to `next` regardless of the low score; and across the whole
execution loop, from any state with pairwise distinct step ids whose
counters respect their budgets, every retry counter stays within its
configured `max_revisions`, so the review cycle is bounded by the
revision budget. -/
theorem retry_on_low_score_C3 (env : Env) (cfg : List StepCfg) (st : SysState)
    (current : String) (step_cfg : StepCfg) (rc : RetryCfg) (s : StepRec) (score : Int)
    (hcfg : step_cfg.retry_on_low_score = some rc)
    (hstep : findStep st.steps current = some s)
    (hscore : overallScore s.output_data = Except.ok score) :
    ((score < rc.threshold ∧ s.retry_count < rc.max_revisions →
        retryOrAdvance env st current step_cfg =
          IterOut.next (retryJump st current rc.retry_step) (some rc.retry_step) ∧
        findStep (retryJump st current rc.retry_step).steps current =
          some { s with retry_count := s.retry_count + 1 } ∧
        (retryJump st current rc.retry_step).run.current_step_id =
          some rc.retry_step) ∧
      (rc.max_revisions ≤ s.retry_count →
        retryOrAdvance env st current step_cfg =
          IterOut.next (advanceState st step_cfg.next) step_cfg.next)) ∧
    (∀ (fuel : Nat) (st0 : SysState) (cur : Option String),
      NodupIds st0 → RetryBound cfg st0 →
      RetryBound cfg (execLoop env cfg fuel st0 cur)) := by
  have hscore2 : overallScore ((findStep st.steps current).bind
      (fun x => x.output_data)) = Except.ok score := by
    rw [hstep]
    exact hscore
  refine ⟨⟨?_, ?_⟩, ?_⟩
  · intro hc
    have hc2 : (findStep st.steps current).elim 0 (fun x => x.retry_count) <
        rc.max_revisions := by
      rw [hstep]
      exact hc.2
    refine ⟨?_, ?_, rfl⟩
    · unfold retryOrAdvance
      rw [hcfg]
      dsimp only
      rw [hscore2]
      dsimp only
      rw [if_pos ⟨hc.1, hc2⟩]
    · have hsid : (s.step_id == current) = true := by
        have h0 := List.find?_some hstep
        simpa using h0
      rw [show (retryJump st current rc.retry_step).steps =
            updateStep st.steps current
              (fun x => { x with retry_count := x.retry_count + 1 }) from rfl,
        findStep_updateStep st.steps current
          (fun x => { x with retry_count := x.retry_count + 1 }) (fun _ => rfl),
        hstep]
      simp only [Option.map]
      rw [if_pos hsid]
  · intro hc
    have hc2 : ¬(score < rc.threshold ∧
        (findStep st.steps current).elim 0 (fun x => x.retry_count) <
          rc.max_revisions) := by
      intro h
      have hlt : s.retry_count < rc.max_revisions := by
        have h2 := h.2
        rw [hstep] at h2
        exact h2
      omega
    unfold retryOrAdvance
    rw [hcfg]
    dsimp only
    rw [hscore2]
    dsimp only
    rw [if_neg hc2]
  · intro fuel st0 cur hnd hrb
    exact (execLoop_stepsInv env cfg fuel st0 cur ⟨hnd, hrb⟩).2

/-- C3 witness: at the retry fixture, a score of 5 against threshold 7 with
no revision spent jumps back to `w` with the counter at 1; with both
revisions spent the run advances to the review step config `next` despite
the low score; the loop keeps every counter within its budget from the
mid-loop state; and the full scenario ends COMPLETED with the review step
counter at exactly 2. -/
theorem retry_on_low_score_C3_witness :
    retryOrAdvance retryEnv retryMid "r" reviewCfg =
      IterOut.next (retryJump retryMid "r" "w") (some "w") ∧
    findStep (retryJump retryMid "r" "w").steps "r" =
      some { retryRow with retry_count := 1 } ∧
    retryOrAdvance retryEnv retryMidSpent "r" reviewCfg =
      IterOut.next (advanceState retryMidSpent none) none ∧
    RetryBound retryCfgFix (execLoop retryEnv retryCfgFix 20 retryMid (some "r")) ∧
    (findStep retryStart.steps "r").map (fun s => s.retry_count) = some 2 ∧
    retryStart.run.status = WorkflowStatus.completed := by
  have h1 := retry_on_low_score_C3 retryEnv retryCfgFix retryMid "r" reviewCfg
    { threshold := 7, max_revisions := 2, retry_step := "w" } retryRow 5 rfl rfl rfl
  have h2 := retry_on_low_score_C3 retryEnv retryCfgFix retryMidSpent "r" reviewCfg
    { threshold := 7, max_revisions := 2, retry_step := "w" } retryRowSpent 5 rfl rfl rfl
  obtain ⟨hj1, hj2, hj3⟩ := h1.1.1 ⟨by decide, by decide⟩
  refine ⟨hj1, ?_, h2.1.2 (by decide),
    h1.2 20 retryMid (some "r") (by unfold NodupIds; decide)
      (by unfold RetryBound; decide),
    by decide, by decide⟩
  exact hj2

/-! ## Awaiting-implies-paused invariant machinery -/

/-- Updating the approval-linked step row with an id-preserving function
leaves the list of step ids unchanged. -/
theorem updateStepByApproval_ids (steps : List StepRec) (aid : Nat)
    (f : StepRec → StepRec) (hid : ∀ s, (f s).step_id = s.step_id) :
    (updateStepByApproval steps aid f).map (fun s => s.step_id) =
      steps.map (fun s => s.step_id) := by
  unfold updateStepByApproval
  rw [List.map_map]
  refine List.map_congr_left (fun a _ => ?_)
  dsimp only [Function.comp]
  split
  · exact hid a
  · rfl

theorem LoopInv_of_steps_eq (st st2 : SysState) (h : st2.steps = st.steps)
    (hi : LoopInv st) : LoopInv st2 := by
  refine ⟨?_, ?_⟩
  · unfold NodupIds
    rw [h]
    exact hi.1
  · unfold NoAwait
    rw [h]
    exact hi.2

theorem LoopInv_updateStep (st st2 : SysState) (c : String) (f : StepRec → StepRec)
    (h : st2.steps = updateStep st.steps c f)
    (hid : ∀ s, (f s).step_id = s.step_id)
    (hst : ∀ s, (f s).status = s.status ∨ (f s).status ≠ StepStatus.awaiting_approval)
    (hi : LoopInv st) : LoopInv st2 := by
  refine ⟨?_, ?_⟩
  · unfold NodupIds
    rw [h, updateStep_ids st.steps c f hid]
    exact hi.1
  · unfold NoAwait
    rw [h]
    intro x hx
    have hx2 : x ∈ List.map
        (fun s => if (s.step_id == c) = true then f s else s) st.steps := hx
    obtain ⟨t, ht, rfl⟩ := List.mem_map.mp hx2
    by_cases hq : (t.step_id == c) = true
    · rw [if_pos hq]
      rcases hst t with h1 | h1
      · rw [h1]
        exact hi.2 t ht
      · exact h1
    · rw [if_neg hq]
      exact hi.2 t ht

theorem LoopInv_pub (st : SysState) (n : String) (d : Payload)
    (hi : LoopInv st) : LoopInv (pub st n d) :=
  LoopInv_of_steps_eq st (pub st n d) rfl hi

theorem LoopInv_markRunning (env : Env) (st : SysState) (c : String) (sc : StepCfg)
    (hi : LoopInv st) : LoopInv (markRunning env st c sc) :=
  LoopInv_updateStep st (markRunning env st c sc) c
    (fun s => { s with status := StepStatus.running, started_at := some env.now })
    rfl (fun _ => rfl) (fun _ => Or.inr (by simp)) hi

theorem LoopInv_failState (env : Env) (st : SysState) (c m : String)
    (hi : LoopInv st) : LoopInv (failState env st c m) :=
  LoopInv_updateStep st (failState env st c m) c
    (fun s => { s with status := StepStatus.failed, error_message := some m, completed_at := some env.now })
    rfl (fun _ => rfl) (fun _ => Or.inr (by simp)) hi

theorem LoopInv_recordOutput (st : SysState) (c : String) (res : AgentResult)
    (hi : LoopInv st) : LoopInv (recordOutput st c res) :=
  LoopInv_updateStep st (recordOutput st c res) c
    (fun s => { s with output_data := some (outputFromResult res), cost_usd := res.cost_usd, duration_ms := res.duration_ms })
    rfl (fun _ => rfl) (fun _ => Or.inl rfl) hi

theorem LoopInv_markCompleted (env : Env) (st : SysState) (c : String)
    (hi : LoopInv st) : LoopInv (markCompleted env st c) :=
  LoopInv_updateStep st (markCompleted env st c) c
    (fun s => { s with status := StepStatus.completed, completed_at := some env.now })
    rfl (fun _ => rfl) (fun _ => Or.inr (by simp)) hi

theorem LoopInv_check_hitl (env : Env) (st : SysState) (a b : String) (p : Payload)
    (c : Option Payload) (hi : LoopInv st) :
    LoopInv (check_hitl env st a b p c).1 :=
  LoopInv_of_steps_eq st (check_hitl env st a b p c).1
    (check_hitl_steps env st a b p c) hi

/-- A state with no suspended step row satisfies the at-rest invariant
vacuously. -/
theorem EngineInv_of_noawait (st : SysState) (hi : LoopInv st) : EngineInv st :=
  ⟨hi.1, fun s hs ha => absurd ha (hi.2 s hs),
    ⟨"", fun s hs ha => absurd ha (hi.2 s hs)⟩⟩

/-- The unconditional-gate suspension sets the current step AWAITING and the
run PAUSED in the same transition, and it is the only awaiting row. -/
theorem EngineInv_gateSuspend (st : SysState) (c : String) (hi : LoopInv st) :
    EngineInv (gateSuspend st c) := by
  refine ⟨?_, ?_, ?_⟩
  · unfold NodupIds
    show ((updateStep st.steps c
        (fun s => { s with status := StepStatus.awaiting_approval })).map
        (fun s => s.step_id)).Nodup
    rw [updateStep_ids st.steps c
      (fun s => { s with status := StepStatus.awaiting_approval }) (fun _ => rfl)]
    exact hi.1
  · intro x hx ha
    rfl
  · refine ⟨c, ?_⟩
    intro x hx ha
    have hx2 : x ∈ List.map
        (fun s => if (s.step_id == c) = true then
          { s with status := StepStatus.awaiting_approval } else s) st.steps := hx
    obtain ⟨t, ht, rfl⟩ := List.mem_map.mp hx2
    by_cases hq : (t.step_id == c) = true
    · rw [if_pos hq]
      have h3 : t.step_id = c := by simpa using hq
      exact h3
    · rw [if_neg hq] at ha
      exact absurd ha (hi.2 t ht)

/-- The HITL-gate suspension sets the current step AWAITING (linked to the
approval) and the run PAUSED in the same transition, and it is the only
awaiting row. -/
theorem EngineInv_hitlSuspend (st : SysState) (c : String) (a : Option Nat)
    (hi : LoopInv st) : EngineInv (hitlSuspend st c a) := by
  cases a with
  | none =>
    refine ⟨?_, ?_, ?_⟩
    · unfold NodupIds
      show ((updateStep st.steps c
          (fun s => { s with status := StepStatus.awaiting_approval })).map
          (fun s => s.step_id)).Nodup
      rw [updateStep_ids st.steps c
        (fun s => { s with status := StepStatus.awaiting_approval }) (fun _ => rfl)]
      exact hi.1
    · intro x hx ha
      rfl
    · refine ⟨c, ?_⟩
      intro x hx ha
      have hx2 : x ∈ List.map
          (fun s => if (s.step_id == c) = true then
            { s with status := StepStatus.awaiting_approval } else s) st.steps := hx
      obtain ⟨t, ht, rfl⟩ := List.mem_map.mp hx2
      by_cases hq : (t.step_id == c) = true
      · rw [if_pos hq]
        have h3 : t.step_id = c := by simpa using hq
        exact h3
      · rw [if_neg hq] at ha
        exact absurd ha (hi.2 t ht)
  | some aid =>
    refine ⟨?_, ?_, ?_⟩
    · unfold NodupIds
      show ((updateStep st.steps c
          (fun s => { s with status := StepStatus.awaiting_approval, approval_id := some aid })).map
          (fun s => s.step_id)).Nodup
      rw [updateStep_ids st.steps c
        (fun s => { s with status := StepStatus.awaiting_approval, approval_id := some aid })
        (fun _ => rfl)]
      exact hi.1
    · intro x hx ha
      rfl
    · refine ⟨c, ?_⟩
      intro x hx ha
      have hx2 : x ∈ List.map
          (fun s => if (s.step_id == c) = true then
            { s with status := StepStatus.awaiting_approval, approval_id := some aid }
          else s) st.steps := hx
      obtain ⟨t, ht, rfl⟩ := List.mem_map.mp hx2
      by_cases hq : (t.step_id == c) = true
      · rw [if_pos hq]
        have h3 : t.step_id = c := by simpa using hq
        exact h3
      · rw [if_neg hq] at ha
        exact absurd ha (hi.2 t ht)

theorem retryOrAdvance_awaitInv (env : Env) (st : SysState) (c : String)
    (sc : StepCfg) (hi : LoopInv st) : iterAwaitInv (retryOrAdvance env st c sc) := by
  unfold retryOrAdvance
  split
  · rename_i rc hrc
    split
    · exact EngineInv_of_noawait _ (LoopInv_failState env st c "TypeError" hi)
    · rename_i score hscore
      split
      · exact LoopInv_updateStep st _ c
          (fun s => { s with retry_count := s.retry_count + 1 })
          rfl (fun _ => rfl) (fun _ => Or.inl rfl) hi
      · exact LoopInv_of_steps_eq st _ rfl hi
  · exact LoopInv_of_steps_eq st _ rfl hi

theorem afterHitlCheck_awaitInv (env : Env) (st1 : SysState) (c : String)
    (sc : StepCfg) (slug : String) (res : AgentResult) (r : HitlResult)
    (hi : LoopInv st1) : iterAwaitInv (afterHitlCheck env st1 c sc slug res r) := by
  unfold afterHitlCheck
  split
  · refine retryOrAdvance_awaitInv env
      (markCompleted env (pub st1 ("agent." ++ slug ++ ".completed")
        [("run_id", JVal.num st1.run.id), ("step_id", JVal.str c),
         ("action", JVal.str sc.action),
         ("cost_usd", JVal.num res.cost_usd),
         ("duration_ms", JVal.num res.duration_ms)]) c) c sc ?_
    exact LoopInv_markCompleted env _ c (LoopInv_pub st1 _ _ hi)
  · exact EngineInv_hitlSuspend st1 c r.approval_id hi

theorem execAgentOk_awaitInv (env : Env) (st : SysState) (c : String) (sc : StepCfg)
    (slug : String) (res : AgentResult) (hi : LoopInv st) :
    iterAwaitInv (execAgentOk env st c sc slug res) := by
  unfold execAgentOk
  split
  · exact afterHitlCheck_awaitInv env _ c sc slug res _
      (LoopInv_check_hitl env _ _ _ _ _ (LoopInv_recordOutput st c res hi))
  · exact afterHitlCheck_awaitInv env _ c sc slug res _
      (LoopInv_recordOutput st c res hi)

theorem execStep_awaitInv (env : Env) (cfg : List StepCfg) (st : SysState)
    (c : String) (hi : LoopInv st) : iterAwaitInv (execStep env cfg st c) := by
  unfold execStep
  split
  · exact hi
  rename_i sc hsc
  split
  · exact hi
  split
  · exact EngineInv_gateSuspend st c hi
  split
  · rename_i slug hslug
    split
    · cases ho : env.oracle (markRunning env st c sc).calls with
      | ok res =>
        simp only [ho]
        exact execAgentOk_awaitInv env (markRunning env st c sc) c sc slug res
          (LoopInv_markRunning env st c sc hi)
      | raise msg =>
        simp only [ho]
        exact EngineInv_of_noawait _
          (LoopInv_failState env (markRunning env st c sc) c msg
            (LoopInv_markRunning env st c sc hi))
    · exact EngineInv_of_noawait _
        (LoopInv_failState env (markRunning env st c sc) c _
          (LoopInv_markRunning env st c sc hi))
  · exact retryOrAdvance_awaitInv env (markCompleted env (markRunning env st c sc) c)
      c sc (LoopInv_markCompleted env (markRunning env st c sc) c
        (LoopInv_markRunning env st c sc hi))

/-- The execution loop, entered with distinct ids and no suspended row,
always leaves a state where awaiting implies paused (either it suspends —
setting both statuses together — or no awaiting row survives). -/
theorem execLoop_awaitInv (env : Env) (cfg : List StepCfg) :
    ∀ (fuel : Nat) (st : SysState) (cur : Option String),
    LoopInv st → EngineInv (execLoop env cfg fuel st cur) := by
  intro fuel
  induction fuel with
  | zero => intro st cur hi; exact EngineInv_of_noawait st hi
  | succ n ih =>
    intro st cur hi
    rcases cur with _ | c
    · refine EngineInv_of_noawait _ (LoopInv_of_steps_eq st _ ?_ hi)
      simp [execLoop]
    · rw [execLoop]
      have h1 := execStep_awaitInv env cfg st c hi
      rcases hstep : execStep env cfg st c with ⟨st2, cur2⟩ | st2 | st2
      · rw [hstep] at h1
        exact ih st2 cur2 h1
      · rw [hstep] at h1
        exact EngineInv_of_noawait _ (LoopInv_of_steps_eq st2 _ rfl h1)
      · rw [hstep] at h1
        exact h1

/-- Clearing by step id: when every awaiting row carries the updated id and
the update lands on a non-awaiting status, no awaiting row survives. -/
theorem NoAwait_clearAwait (steps : List StepRec) (sid : String)
    (f : StepRec → StepRec)
    (hf : ∀ s, (f s).status ≠ StepStatus.awaiting_approval)
    (hsh : ∀ s ∈ steps, s.status = StepStatus.awaiting_approval → s.step_id = sid) :
    ∀ s ∈ updateStep steps sid f, s.status ≠ StepStatus.awaiting_approval := by
  intro x hx
  unfold updateStep at hx
  obtain ⟨t, ht, rfl⟩ := List.mem_map.mp hx
  by_cases hq : (t.step_id == sid) = true
  · rw [if_pos hq]
    exact hf t
  · rw [if_neg hq]
    intro ha
    apply hq
    rw [hsh t ht ha]
    simp

/-- Clearing by approval link: when every awaiting row is linked to the
updated approval and the update lands on a non-awaiting status, no awaiting
row survives. -/
theorem NoAwait_clearByApproval (steps : List StepRec) (aid : Nat)
    (f : StepRec → StepRec)
    (hf : ∀ s, (f s).status ≠ StepStatus.awaiting_approval)
    (h : ∀ s ∈ steps, s.status = StepStatus.awaiting_approval →
      (s.approval_id == some aid) = true) :
    ∀ s ∈ updateStepByApproval steps aid f,
      s.status ≠ StepStatus.awaiting_approval := by
  intro x hx
  unfold updateStepByApproval at hx
  obtain ⟨t, ht, rfl⟩ := List.mem_map.mp hx
  by_cases hq : (t.approval_id == some aid) = true
  · rw [if_pos hq]
    exact hf t
  · rw [if_neg hq]
    intro ha
    exact hq (h t ht ha)

/-- The modified-payload substitution leaves the step rows alone or maps
them through an output-only update linked to the approval. -/
theorem applyModifiedPayload_stepsShape (st : SysState) (aid : Nat)
    (step : StepRec) :
    (applyModifiedPayload st aid step).steps = st.steps ∨
    ∃ p, (applyModifiedPayload st aid step).steps =
      updateStepByApproval st.steps aid (fun s => { s with output_data := some p }) := by
  unfold applyModifiedPayload
  split
  · rename_i ap hap
    split
    · rename_i p hp
      split
      · exact Or.inl rfl
      · refine Or.inr ⟨p, ?_⟩
        dsimp only
        split
        · rfl
        · rfl
    · exact Or.inl rfl
  · exact Or.inl rfl

/-- The resume tail preserves the at-rest invariant from a cleared state. -/
theorem resumeAdvance_engineInv (env : Env) (fuel : Nat) (st : SysState)
    (sid : String) (hi : LoopInv st) : EngineInv (resumeAdvance env fuel st sid) := by
  unfold resumeAdvance
  split
  · exact EngineInv_of_noawait st hi
  · split
    · exact execLoop_awaitInv env _ fuel _ _ (LoopInv_of_steps_eq st _ rfl hi)
    · exact EngineInv_of_noawait _ (LoopInv_of_steps_eq st _ rfl hi)

/-- The approve tail preserves the at-rest invariant from a cleared state. -/
theorem approveAdvance_engineInv (env : Env) (fuel : Nat) (st : SysState)
    (sid : String) (hi : LoopInv st) : EngineInv (approveAdvance env fuel st sid) := by
  unfold approveAdvance
  split
  · exact EngineInv_of_noawait st hi
  · split
    · exact EngineInv_of_noawait st hi
    · exact execLoop_awaitInv env _ fuel _ _ (LoopInv_of_steps_eq st _ rfl hi)

/-- `approve_step`, when its target is the awaiting step, preserves the
at-rest invariant. -/
theorem approve_step_engineInv (env : Env) (fuel : Nat) (st : SysState) (rid : Nat)
    (sid : String) (b : Bool) (s : StepRec)
    (hfind : findStep st.steps sid = some s)
    (hawait : s.status = StepStatus.awaiting_approval)
    (hi : EngineInv st) : EngineInv (approve_step env fuel st rid sid b).1 := by
  have hmem : s ∈ st.steps := List.mem_of_find?_eq_some hfind
  have hsid2 : s.step_id = sid := by
    have h0 := List.find?_some hfind
    simpa using h0
  obtain ⟨sid0, hsh0⟩ := hi.2.2
  have hsh : ∀ t ∈ st.steps, t.status = StepStatus.awaiting_approval →
      t.step_id = sid :=
    fun t ht ha => ((hsh0 t ht ha).trans (hsh0 s hmem hawait).symm).trans hsid2
  unfold approve_step
  split
  · exact hi
  · split
    · exact hi
    · split
      · refine approveAdvance_engineInv env fuel _ sid ⟨?_, ?_⟩
        · unfold NodupIds
          show ((updateStep st.steps sid
              (fun s2 => { s2 with status := StepStatus.completed, completed_at := some env.now })).map
              (fun s2 => s2.step_id)).Nodup
          rw [updateStep_ids st.steps sid
            (fun s2 => { s2 with status := StepStatus.completed, completed_at := some env.now })
            (fun _ => rfl)]
          exact hi.1
        · intro x hx
          exact NoAwait_clearAwait st.steps sid
            (fun s2 => { s2 with status := StepStatus.completed, completed_at := some env.now })
            (fun _ => by simp) hsh x hx
      · refine EngineInv_of_noawait _ ⟨?_, ?_⟩
        · unfold NodupIds
          show ((updateStep st.steps sid
              (fun s2 => { s2 with status := StepStatus.failed, completed_at := some env.now })).map
              (fun s2 => s2.step_id)).Nodup
          rw [updateStep_ids st.steps sid
            (fun s2 => { s2 with status := StepStatus.failed, completed_at := some env.now })
            (fun _ => rfl)]
          exact hi.1
        · intro x hx
          exact NoAwait_clearAwait st.steps sid
            (fun s2 => { s2 with status := StepStatus.failed, completed_at := some env.now })
            (fun _ => by simp) hsh x hx

/-- `resume_from_approval`, when the linked step is the awaiting one,
preserves the at-rest invariant. -/
theorem resume_engineInv (env : Env) (fuel : Nat) (st : SysState) (aid : Nat)
    (b : Bool) (s : StepRec)
    (hfind : findStepByApproval st.steps aid = some s)
    (hawait : s.status = StepStatus.awaiting_approval)
    (hi : EngineInv st) : EngineInv (resume_from_approval env fuel st aid b) := by
  have hmem : s ∈ st.steps := List.mem_of_find?_eq_some hfind
  obtain ⟨sid0, hsh0⟩ := hi.2.2
  have hP : ∀ t ∈ st.steps, t.status = StepStatus.awaiting_approval →
      (t.approval_id == some aid) = true := by
    intro t ht ha
    have hts : t = s := List.inj_on_of_nodup_map hi.1 ht hmem
      ((hsh0 t ht ha).trans (hsh0 s hmem hawait).symm)
    have h0 := List.find?_some hfind
    rw [hts]
    exact h0
  unfold resume_from_approval
  split
  · exact hi
  · rename_i step hstep2
    split
    · exact hi
    · split
      · refine resumeAdvance_engineInv env fuel _ step.step_id ⟨?_, ?_⟩
        · unfold NodupIds
          show ((updateStepByApproval (applyModifiedPayload st aid step).steps aid
              (fun s2 => { s2 with status := StepStatus.completed, completed_at := some env.now })).map
              (fun s2 => s2.step_id)).Nodup
          rw [updateStepByApproval_ids (applyModifiedPayload st aid step).steps aid
            (fun s2 => { s2 with status := StepStatus.completed, completed_at := some env.now })
            (fun _ => rfl)]
          rcases applyModifiedPayload_stepsShape st aid step with hsh2 | ⟨p, hsh2⟩
          · rw [hsh2]
            exact hi.1
          · rw [hsh2, updateStepByApproval_ids st.steps aid
              (fun s2 => { s2 with output_data := some p }) (fun _ => rfl)]
            exact hi.1
        · intro x hx
          have hP1 : ∀ t ∈ (applyModifiedPayload st aid step).steps,
              t.status = StepStatus.awaiting_approval →
              (t.approval_id == some aid) = true := by
            rcases applyModifiedPayload_stepsShape st aid step with hsh2 | ⟨p, hsh2⟩
            · rw [hsh2]
              exact hP
            · rw [hsh2]
              intro t ht ha
              have ht2 : t ∈ List.map
                  (fun s2 => if (s2.approval_id == some aid) = true then
                    { s2 with output_data := some p } else s2) st.steps := ht
              obtain ⟨u, hu, rfl⟩ := List.mem_map.mp ht2
              by_cases hq : (u.approval_id == some aid) = true
              · rw [if_pos hq] at ha ⊢
                exact hq
              · rw [if_neg hq] at ha ⊢
                exact hP u hu ha
          exact NoAwait_clearByApproval (applyModifiedPayload st aid step).steps aid
            (fun s2 => { s2 with status := StepStatus.completed, completed_at := some env.now })
            (fun _ => by simp) hP1 x hx
      · refine EngineInv_of_noawait _ ⟨?_, ?_⟩
        · unfold NodupIds
          show ((updateStepByApproval st.steps aid
              (fun s2 => { s2 with status := StepStatus.failed, completed_at := some env.now })).map
              (fun s2 => s2.step_id)).Nodup
          rw [updateStepByApproval_ids st.steps aid
            (fun s2 => { s2 with status := StepStatus.failed, completed_at := some env.now })
            (fun _ => rfl)]
          exact hi.1
        · intro x hx
          exact NoAwait_clearByApproval st.steps aid
            (fun s2 => { s2 with status := StepStatus.failed, completed_at := some env.now })
            (fun _ => by simp) hP x hx

/-- A freshly started workflow satisfies the at-rest invariant, provided
the resolved pipeline definition carries pairwise distinct step ids. -/
theorem start_workflow_engineInv (env : Env) (fuel : Nat) (name : String)
    (ctx : Option (List (String × Payload))) (trig : String) (st : SysState)
    (henv : ∀ n cfgl, env.workflows.lookup n = some cfgl →
      (cfgl.map (fun x => x.id)).Nodup)
    (h : start_workflow env fuel name ctx trig = Except.ok st) : EngineInv st := by
  unfold start_workflow at h
  split at h
  · exact absurd h (by simp)
  · rename_i cfgl hlook
    split at h
    · exact absurd h (by simp)
    · have h2 := Except.ok.inj h
      rw [← h2]
      refine execLoop_awaitInv env cfgl fuel _ _ ⟨?_, ?_⟩
      · unfold NodupIds
        show ((cfgl.map (fun c =>
            ({ step_id := c.id, agent_slug := c.agent, action := c.action, status := StepStatus.pending, output_data := none, cost_usd := 0, duration_ms := 0, retry_count := 0, approval_id := none, error_message := none, started_at := none, completed_at := none } : StepRec))).map
            (fun s => s.step_id)).Nodup
        rw [List.map_map]
        exact henv name cfgl hlook
      · intro x hx
        have hx2 : x ∈ cfgl.map (fun c =>
            ({ step_id := c.id, agent_slug := c.agent, action := c.action, status := StepStatus.pending, output_data := none, cost_usd := 0, duration_ms := 0, retry_count := 0, approval_id := none, error_message := none, started_at := none, completed_at := none } : StepRec)) := hx
        obtain ⟨cstep, hc, rfl⟩ := List.mem_map.mp hx2
        intro hcon
        exact absurd hcon (by simp)

/-- C7 counterexample: the invariant fails under arbitrary operation
targeting. From the gate scenario (step `b` AWAITING_APPROVAL, run
PAUSED_FOR_APPROVAL), rejecting step `a` through `approve_step` — the code
never checks that the named step is the awaiting one — cancels the run
while row `b` stays AWAITING_APPROVAL. -/
theorem await_paused_counterexample_C7 :
    ReachedAny gateEnv 8 (approve_step gateEnv 8 gateStart 0 "a" false).1 ∧
    (∃ s ∈ (approve_step gateEnv 8 gateStart 0 "a" false).1.steps,
      s.status = StepStatus.awaiting_approval) ∧
    (approve_step gateEnv 8 gateStart 0 "a" false).1.run.status ≠
      WorkflowStatus.paused_for_approval := by
  refine ⟨ReachedAny.approvedStep gateStart 0 "a" false
    (ReachedAny.started "wf" none "manual" gateStart rfl), ?_, ?_⟩
  · decide
  · decide

/-- C7 (amended): in every state reachable through the engine operations
when each decision targets the step actually awaiting approval — the
discipline the approvals API enforces by resolving the step through the
recorded approval link — and with pairwise distinct step ids in every
pipeline definition, an AWAITING_APPROVAL step row implies the run is
PAUSED_FOR_APPROVAL; and both suspension points set the step
AWAITING_APPROVAL and the run PAUSED_FOR_APPROVAL together. -/
theorem await_implies_paused_C7_amended (env : Env) (fuel : Nat) (st : SysState)
    (henv : ∀ n cfgl, env.workflows.lookup n = some cfgl →
      (cfgl.map (fun x => x.id)).Nodup)
    (h : Reached env fuel st) :
    AwaitImpliesPaused st ∧
    (∀ (st0 : SysState) (c : String),
      (gateSuspend st0 c).run.status = WorkflowStatus.paused_for_approval ∧
      ∀ s ∈ (gateSuspend st0 c).steps, (s.step_id == c) = true →
        s.status = StepStatus.awaiting_approval) ∧
    (∀ (st0 : SysState) (c : String) (a : Option Nat),
      (hitlSuspend st0 c a).run.status = WorkflowStatus.paused_for_approval ∧
      ∀ s ∈ (hitlSuspend st0 c a).steps, (s.step_id == c) = true →
        s.status = StepStatus.awaiting_approval) := by
  have hinv : EngineInv st := by
    induction h with
    | started name ctx trig st2 hs =>
      exact start_workflow_engineInv env fuel name ctx trig st2 henv hs
    | approvedStep st2 rid sid b s2 hr hfind hst ih =>
      exact approve_step_engineInv env fuel st2 rid sid b s2 hfind hst ih
    | resumed st2 aid b s2 hr hfind hst ih =>
      exact resume_engineInv env fuel st2 aid b s2 hfind hst ih
  refine ⟨hinv.2.1, ?_, ?_⟩
  · intro st0 c
    refine ⟨rfl, ?_⟩
    intro x hx hid2
    have hx2 : x ∈ List.map
        (fun s => if (s.step_id == c) = true then
          { s with status := StepStatus.awaiting_approval } else s) st0.steps := hx
    obtain ⟨t, ht, rfl⟩ := List.mem_map.mp hx2
    by_cases hq : (t.step_id == c) = true
    · rw [if_pos hq]
    · rw [if_neg hq] at hid2
      exact absurd hid2 hq
  · intro st0 c a
    refine ⟨?_, ?_⟩
    · cases a <;> rfl
    · intro x hx hid2
      cases a with
      | none =>
        have hx2 : x ∈ List.map
            (fun s => if (s.step_id == c) = true then
              { s with status := StepStatus.awaiting_approval } else s) st0.steps := hx
        obtain ⟨t, ht, rfl⟩ := List.mem_map.mp hx2
        by_cases hq : (t.step_id == c) = true
        · rw [if_pos hq]
        · rw [if_neg hq] at hid2
          exact absurd hid2 hq
      | some aid =>
        have hx2 : x ∈ List.map
            (fun s => if (s.step_id == c) = true then
              { s with status := StepStatus.awaiting_approval, approval_id := some aid }
            else s) st0.steps := hx
        obtain ⟨t, ht, rfl⟩ := List.mem_map.mp hx2
        by_cases hq : (t.step_id == c) = true
        · rw [if_pos hq]
        · rw [if_neg hq] at hid2
          exact absurd hid2 hq

/-- C7 witness: on the gate scenario reached by starting the workflow, the
invariant holds — step `b` is AWAITING_APPROVAL and, through the theorem,
the run is PAUSED_FOR_APPROVAL. -/
theorem await_implies_paused_C7_witness :
    AwaitImpliesPaused gateStart ∧
    (∃ s ∈ gateStart.steps, s.status = StepStatus.awaiting_approval) ∧
    gateStart.run.status = WorkflowStatus.paused_for_approval := by
  have henv : ∀ n cfgl, gateEnv.workflows.lookup n = some cfgl →
      (cfgl.map (fun x => x.id)).Nodup := by
    intro n cfgl h
    have h2 : cfgl = gateCfg := by
      simp only [gateEnv, List.lookup] at h
      split at h
      · exact (Option.some.inj h).symm
      · exact absurd h (by simp)
    rw [h2]
    decide
  have h := await_implies_paused_C7_amended gateEnv 8 gateStart henv
    (Reached.started "wf" none "manual" gateStart rfl)
  obtain ⟨sb, hsb, hsbst⟩ :
      ∃ s ∈ gateStart.steps, s.status = StepStatus.awaiting_approval := by decide
  exact ⟨h.1, ⟨sb, hsb, hsbst⟩, h.1 sb hsb hsbst⟩

end Fuega
